import Mathlib

/-!
Verification development for the penny personal-finance manager
(src/penny.py).  The in-memory ledger, its mutation operations, the
structured (JSON) codec and the tabular (CSV) codec are shallowly
embedded as executable Lean definitions.  Python strings are lists of
characters, Python floats are rationals, fallible Python code returns
an Except value, and dictionary keys that can be absent are Option
fields.  The CSV layer is modelled at the cell level (a row is a list
of cell strings): the character-level quoting performed by the csv
module is a faithful bijection on cell lists and is abstracted away.
-/

set_option autoImplicit false

namespace Penny

/-- Python strings are modelled as lists of characters. -/
abbrev Str := List Char

/-- The ten decimal digit characters, in value order. -/
def digitChars : Str := ['0', '1', '2', '3', '4', '5', '6', '7', '8', '9']

/-- The character for a single decimal digit. -/
def toDigitChar (d : Nat) : Char := digitChars.getD d '0'

/-- The numeric value of a decimal digit character, none for other characters. -/
def ofDigitChar (c : Char) : Option Nat := digitChars.findIdx? (fun x => x == c)

/-- Whitespace characters removed by the str.strip method. -/
def wsChars : Str := [' ', '\t', '\n', '\r', '\x0b', '\x0c']

/-- Whether a character is whitespace for str.strip. -/
def isWS (c : Char) : Bool := wsChars.contains c

/-- Python str.strip: remove leading and trailing whitespace. -/
def stripStr (s : Str) : Str := ((s.dropWhile isWS).reverse.dropWhile isWS).reverse

/-- Whether pat occurs at the very start of text. -/
def leadMatch : Str → Str → Bool
  | [], _ => true
  | _ :: _, [] => false
  | p :: ps, t :: ts => p == t && leadMatch ps ts

/-- Python substring membership test: pat in text. -/
def hasSub (pat : Str) : Str → Bool
  | [] => pat.isEmpty
  | c :: rest => leadMatch pat (c :: rest) || hasSub pat rest

/-- Python str.split(sep) for a one-character separator. -/
def splitOnChar (sep : Char) : Str → List Str
  | [] => [[]]
  | c :: rest =>
    if c = sep then [] :: splitOnChar sep rest
    else
      match splitOnChar sep rest with
      | [] => [[c]]
      | h :: t => (c :: h) :: t

/-- Multiplicity of the factor p in n, with explicit fuel so that the
kernel can evaluate it. -/
def pCountAux : Nat → Nat → Nat → Nat
  | 0, _, _ => 0
  | fuel + 1, p, n =>
    if 2 ≤ p && n != 0 && n % p == 0 then pCountAux fuel p (n / p) + 1 else 0

/-- Exponent k such that a denominator of the form 2^a * 5^b divides 10^k. -/
def kOf (d : Nat) : Nat := max (pCountAux d 2 d) (pCountAux d 5 d)

/-- Decimal digit string of a natural number, most significant first,
with explicit fuel (any fuel at least n works). -/
def natReprAux : Nat → Nat → Str
  | 0, _ => []
  | fuel + 1, n => if n = 0 then [] else natReprAux fuel (n / 10) ++ [toDigitChar (n % 10)]

/-- Python str of a natural number. -/
def natRepr (n : Nat) : Str := if n = 0 then ['0'] else natReprAux n n

/-- The numeric value of a digit character, defaulting to 0. -/
def digitVal (c : Char) : Nat := (ofDigitChar c).getD 0

/-- Value of a string of decimal digits, most significant first. -/
def digitsVal (l : Str) : Nat := l.foldl (fun a c => a * 10 + digitVal c) 0

/-- Whether every character of the string is a decimal digit. -/
def allDigits (l : Str) : Bool := l.all (fun c => (ofDigitChar c).isSome)

/-- Python int parsing of a plain digit string (no sign, no whitespace). -/
def parseNat (l : Str) : Option Nat :=
  if !l.isEmpty && allDigits l then some (digitsVal l) else none

/-- Left-pad a digit string with zeros to the requested length. -/
def padZeros (k : Nat) (l : Str) : Str := List.replicate (k - l.length) '0' ++ l

/-- Python repr of a float, for a rational with a decimal denominator:
sign, integer part, a dot, and at least one fractional digit. -/
def floatRepr (q : Rat) : Str :=
  let kk := max (kOf q.den) 1
  let m := q.num.natAbs * 10 ^ kk / q.den
  (if q.num < 0 then ['-'] else []) ++
    (natRepr (m / 10 ^ kk) ++ ('.' :: padZeros kk (natRepr (m % 10 ^ kk))))

/-- Python float() on an unsigned decimal literal. -/
def floatParseAbs (s : Str) : Option Rat :=
  match splitOnChar '.' s with
  | [ip] => (parseNat ip).map (fun n => (n : Rat))
  | [ip, fp] =>
    if allDigits ip && allDigits fp && !(ip.isEmpty && fp.isEmpty) then
      some ((digitsVal ip : Rat) + (digitsVal fp : Rat) / (10 : Rat) ^ fp.length)
    else none
  | _ => none

/-- Python float() on a decimal literal with an optional leading minus. -/
def floatParse (s : Str) : Option Rat :=
  match s with
  | [] => none
  | c :: rest =>
    if c = '-' then (floatParseAbs rest).map (fun q => -q) else floatParseAbs (c :: rest)

/-- Python str of an integer. -/
def intRepr (z : Int) : Str := (if z < 0 then ['-'] else []) ++ natRepr z.natAbs

/-- Python int() on a decimal literal with an optional leading minus. -/
def intParse (s : Str) : Option Int :=
  match s with
  | [] => none
  | c :: rest =>
    if c = '-' then (parseNat rest).map (fun n => -(n : Int))
    else (parseNat (c :: rest)).map (fun n => (n : Int))

/-- Python str of a boolean. -/
def pyBoolStr (b : Bool) : Str := if b then "True".data else "False".data

/-- Decidable equality of Except results, so that concrete runs of the
embedded operations can be checked by decide. -/
instance {ε α : Type} [DecidableEq ε] [DecidableEq α] :
    DecidableEq (Except ε α) := fun a b =>
  match a, b with
  | .error e, .error f => decidable_of_iff (e = f) (by simp)
  | .ok x, .ok y => decidable_of_iff (x = y) (by simp)
  | .error _, .ok _ => isFalse (by simp)
  | .ok _, .error _ => isFalse (by simp)

/-- Errors raised by the Python code, named after the exception class. -/
inductive PyError
  | valueError
  | typeError
  | keyError
  | attributeError
  | indexError
deriving Repr, DecidableEq

/-- A contribution entry on a savings goal: a dictionary with amount and date. -/
structure Contribution where
  amount : Rat
  date : Str
deriving Repr, DecidableEq

/-- An income dictionary as stored in the ledger.  The id and is_target
keys are Option because dictionaries built by the CSV importer lack id,
and structured import accepts dictionaries verbatim, so is_target can be
absent there. -/
structure IncomeRec where
  id : Option Str
  amount : Rat
  description : Str
  date : Str
  source : Str
  frequency : Str
  is_target : Option Bool
deriving Repr, DecidableEq

/-- An expense dictionary as stored in the ledger. -/
structure ExpenseRec where
  id : Option Str
  amount : Rat
  description : Str
  date : Str
  category : Str
  subcategory : Str
  is_recurring : Option Bool
deriving Repr, DecidableEq

/-- A savings-goal dictionary as stored in the ledger.  The id and
contributions keys are Option because the CSV importer builds goal
dictionaries without them; deadline holds none for Python None. -/
structure GoalRec where
  id : Option Str
  name : Str
  target_amount : Rat
  current_amount : Rat
  category : Str
  deadline : Option Str
  priority : Int
  contributions : Option (List Contribution)
deriving Repr, DecidableEq

/-- The in-memory ledger (FinanceManager.data).  The version key is
Option because dictionaries installed by import lack it. -/
structure Ledger where
  incomes : List IncomeRec
  expenses : List ExpenseRec
  savings_goals : List GoalRec
  version : Option Str
deriving Repr, DecidableEq

/-- The dictionary returned by FinanceManager.get_summary. -/
structure Summary where
  net_balance : Rat
  total_income : Rat
  total_expenses : Rat
  total_savings : Rat
  income_targets : List IncomeRec
  expense_targets : List ExpenseRec
  savings_goals : List GoalRec
deriving Repr, DecidableEq

/-- The Frequency enum. -/
inductive Frequency
  | daily
  | weekly
  | monthly
  | yearly
  | oneTime
deriving Repr, DecidableEq

/-- The string value of a Frequency member. -/
def Frequency.toStr : Frequency → Str
  | .daily => "daily".data
  | .weekly => "weekly".data
  | .monthly => "monthly".data
  | .yearly => "yearly".data
  | .oneTime => "one-time".data

/-- The five frequency enum values. -/
def freqStrs : List Str :=
  ["daily".data, "weekly".data, "monthly".data, "yearly".data, "one-time".data]

/-- The ExpenseCategory enum. -/
inductive ExpenseCategory
  | business
  | personal
deriving Repr, DecidableEq

/-- The string value of an ExpenseCategory member. -/
def ExpenseCategory.toStr : ExpenseCategory → Str
  | .business => "business".data
  | .personal => "personal".data

/-- The SavingsCategory enum. -/
inductive SavingsCategory
  | shortTerm
  | emergency
  | longTerm
  | electronics
  | other
deriving Repr, DecidableEq

/-- The string value of a SavingsCategory member. -/
def SavingsCategory.toStr : SavingsCategory → Str
  | .shortTerm => "short-term".data
  | .emergency => "emergency".data
  | .longTerm => "long-term".data
  | .electronics => "electronics".data
  | .other => "other".data

/-- The Python member name of a SavingsCategory member, as used by str()
of the enum object inside the goal id string. -/
def SavingsCategory.pyName : SavingsCategory → Str
  | .shortTerm => "SHORT_TERM".data
  | .emergency => "EMERGENCY".data
  | .longTerm => "LONG_TERM".data
  | .electronics => "ELECTRONICS".data
  | .other => "OTHER".data

/-- Python's string hash is randomized per process, so the id derivation
str(hash(content)) is abstracted as the formatted content string itself;
the program only ever compares ids for equality. -/
def hashStr (s : Str) : Str := s

/-- The id of a Transaction, from the formatted date-description-amount string. -/
def transId (dateS desc : Str) (amount : Rat) : Str :=
  hashStr (dateS ++ "-".data ++ desc ++ "-".data ++ floatRepr amount)

/-- The id of a SavingsGoal, from name, target amount and category member. -/
def goalId (name : Str) (target : Rat) (category : SavingsCategory) : Str :=
  hashStr (name ++ "-".data ++ floatRepr target ++ "-SavingsCategory.".data ++
    category.pyName)

/-- Income construction (Transaction and Income initializers): validates
amount, defaults the description, stamps today as the date. -/
def mkIncome (amount : Rat) (source : Str) (frequency : Frequency)
    (description : Str) (is_target : Bool) (today : Str) :
    Except PyError IncomeRec :=
  if amount ≤ 0 then .error .valueError
  else
    let desc := if description.isEmpty then "Income from ".data ++ source else description
    .ok { id := some (transId today desc amount), amount := amount,
          description := desc, date := today, source := source,
          frequency := frequency.toStr, is_target := some is_target }

/-- Expense construction (Transaction and Expense initializers). -/
def mkExpense (amount : Rat) (category : ExpenseCategory) (subcategory : Str)
    (description : Str) (is_recurring : Bool) (today : Str) :
    Except PyError ExpenseRec :=
  if amount ≤ 0 then .error .valueError
  else
    let desc := if description.isEmpty then
      category.toStr ++ " expense: ".data ++ subcategory else description
    .ok { id := some (transId today desc amount), amount := amount,
          description := desc, date := today, category := category.toStr,
          subcategory := subcategory, is_recurring := some is_recurring }

/-- SavingsGoal construction: validates target amount and priority,
starts current_amount at zero and contributions empty. -/
def mkGoal (name : Str) (target_amount : Rat) (category : SavingsCategory)
    (deadline : Option Str) (priority : Int) : Except PyError GoalRec :=
  if target_amount ≤ 0 then .error .valueError
  else if priority < 1 ∨ 5 < priority then .error .valueError
  else
    .ok { id := some (goalId name target_amount category), name := name,
          target_amount := target_amount, current_amount := 0,
          category := category.toStr, deadline := deadline,
          priority := priority, contributions := some [] }

/-- FinanceManager.add_income (the persistence save is file io, outside
the embedding). -/
def add_income (l : Ledger) (i : IncomeRec) : Ledger :=
  { l with incomes := l.incomes ++ [i] }

/-- FinanceManager.add_expense. -/
def add_expense (l : Ledger) (e : ExpenseRec) : Ledger :=
  { l with expenses := l.expenses ++ [e] }

/-- FinanceManager.add_savings_goal. -/
def add_savings_goal (l : Ledger) (g : GoalRec) : Ledger :=
  { l with savings_goals := l.savings_goals ++ [g] }

/-- The driver-level flow: construct an Income and append it, or leave
the ledger untouched when construction raises. -/
def tryAddIncome (l : Ledger) (amount : Rat) (source : Str)
    (frequency : Frequency) (description : Str) (is_target : Bool)
    (today : Str) : Ledger × Except PyError Unit :=
  match mkIncome amount source frequency description is_target today with
  | .error e => (l, .error e)
  | .ok i => (add_income l i, .ok ())

/-- The driver-level flow for an Expense. -/
def tryAddExpense (l : Ledger) (amount : Rat) (category : ExpenseCategory)
    (subcategory : Str) (description : Str) (is_recurring : Bool)
    (today : Str) : Ledger × Except PyError Unit :=
  match mkExpense amount category subcategory description is_recurring today with
  | .error e => (l, .error e)
  | .ok e => (add_expense l e, .ok ())

/-- The driver-level flow for a SavingsGoal. -/
def tryAddGoal (l : Ledger) (name : Str) (target_amount : Rat)
    (category : SavingsCategory) (deadline : Option Str) (priority : Int) :
    Ledger × Except PyError Unit :=
  match mkGoal name target_amount category deadline priority with
  | .error e => (l, .error e)
  | .ok g => (add_savings_goal l g, .ok ())

/-- The linear scan of FinanceManager.contribute_to_goal over the goal
list: reading a missing id or contributions key raises KeyError. -/
def contribGoals (goal_id : Str) (amount : Rat) (today : Str) :
    List GoalRec → Except PyError (Bool × List GoalRec)
  | [] => .ok (false, [])
  | g :: rest =>
    match g.id with
    | none => .error .keyError
    | some i =>
      if i = goal_id then
        match g.contributions with
        | none => .error .keyError
        | some cs =>
          let g2 := { g with
            current_amount := g.current_amount + amount,
            contributions := some (cs ++ [⟨amount, today⟩]) }
          .ok (true, g2 :: rest)
      else do
        let (b, gs) ← contribGoals goal_id amount today rest
        .ok (b, g :: gs)

/-- FinanceManager.contribute_to_goal. -/
def contribute_to_goal (l : Ledger) (goal_id : Str) (amount : Rat)
    (today : Str) : Except PyError (Bool × Ledger) := do
  let (b, gs) ← contribGoals goal_id amount today l.savings_goals
  .ok (b, { l with savings_goals := gs })

/-- sum of non-target income amounts; reading a missing is_target key
raises KeyError. -/
def sumNonTarget : List IncomeRec → Except PyError Rat
  | [] => .ok 0
  | i :: rest =>
    match i.is_target with
    | none => .error .keyError
    | some t => do
      let s ← sumNonTarget rest
      .ok ((if t then 0 else i.amount) + s)

/-- The income_targets comprehension; reading a missing is_target key
raises KeyError. -/
def incomeTargetsList : List IncomeRec → Except PyError (List IncomeRec)
  | [] => .ok []
  | i :: rest =>
    match i.is_target with
    | none => .error .keyError
    | some t => do
      let l ← incomeTargetsList rest
      .ok (if t then i :: l else l)

/-- FinanceManager.get_summary: a pure read over the ledger. -/
def get_summary (l : Ledger) : Except PyError Summary := do
  let ti ← sumNonTarget l.incomes
  let te := (l.expenses.map (fun e => e.amount)).sum
  let ts := (l.savings_goals.map (fun g => g.current_amount)).sum
  let its ← incomeTargetsList l.incomes
  let ets := l.expenses.filter (fun e => e.is_recurring.getD false)
  .ok { net_balance := ti - te, total_income := ti, total_expenses := te,
        total_savings := ts, income_targets := its, expense_targets := ets,
        savings_goals := l.savings_goals }

/-- JSON values, the structured representation handled by json.load and
json.dump. -/
inductive JVal
  | null
  | bool (b : Bool)
  | num (q : Rat)
  | str (s : Str)
  | arr (xs : List JVal)
  | obj (fields : List (Str × JVal))

/-- Key lookup in a JSON object (keys in our objects are distinct). -/
def findVal : List (Str × JVal) → Str → Option JVal
  | [], _ => none
  | (k, v) :: rest, key => if k = key then some v else findVal rest key

/-- A key-value entry that is present only when the dictionary holds the key. -/
def optField (name : Str) : Option JVal → List (Str × JVal)
  | none => []
  | some v => [(name, v)]

/-- Encoding of a contribution entry. -/
def contribToJson (c : Contribution) : JVal :=
  .obj [("amount".data, .num c.amount), ("date".data, .str c.date)]

/-- Encoding of an income dictionary, with the keys Income.to_dict
produces, in order; absent optional keys are omitted. -/
def incomeToJson (i : IncomeRec) : JVal :=
  .obj (optField "id".data (i.id.map .str) ++
    [("amount".data, .num i.amount), ("description".data, .str i.description),
     ("date".data, .str i.date), ("type".data, .str "income".data),
     ("source".data, .str i.source), ("frequency".data, .str i.frequency)] ++
    optField "is_target".data (i.is_target.map .bool))

/-- Encoding of an expense dictionary, per Expense.to_dict. -/
def expenseToJson (e : ExpenseRec) : JVal :=
  .obj (optField "id".data (e.id.map .str) ++
    [("amount".data, .num e.amount), ("description".data, .str e.description),
     ("date".data, .str e.date), ("type".data, .str "expense".data),
     ("category".data, .str e.category), ("subcategory".data, .str e.subcategory)] ++
    optField "is_recurring".data (e.is_recurring.map .bool))

/-- Encoding of a goal dictionary, per SavingsGoal.to_dict; deadline is
always present (null for None). -/
def goalToJson (g : GoalRec) : JVal :=
  .obj (optField "id".data (g.id.map .str) ++
    [("name".data, .str g.name), ("target_amount".data, .num g.target_amount),
     ("current_amount".data, .num g.current_amount),
     ("category".data, .str g.category),
     ("deadline".data, match g.deadline with | none => .null | some d => .str d),
     ("priority".data, .num (g.priority : Rat))] ++
    optField "contributions".data
      (g.contributions.map (fun cs => .arr (cs.map contribToJson))))

/-- The structured encoding of the whole ledger, as json.dump writes
FinanceManager.data. -/
def ledgerToJson (l : Ledger) : JVal :=
  .obj ([("incomes".data, .arr (l.incomes.map incomeToJson)),
         ("expenses".data, .arr (l.expenses.map expenseToJson)),
         ("savings_goals".data, .arr (l.savings_goals.map goalToJson))] ++
        optField "version".data (l.version.map .str))

/-- Read an optional string key. -/
def decOptStrKey (fs : List (Str × JVal)) (key : Str) :
    Except PyError (Option Str) :=
  match findVal fs key with
  | none => .ok none
  | some (.str s) => .ok (some s)
  | some _ => .error .typeError

/-- Read a mandatory string key. -/
def decStrKey (fs : List (Str × JVal)) (key : Str) : Except PyError Str :=
  match findVal fs key with
  | some (.str s) => .ok s
  | none => .error .keyError
  | some _ => .error .typeError

/-- Read a mandatory number key. -/
def decNumKey (fs : List (Str × JVal)) (key : Str) : Except PyError Rat :=
  match findVal fs key with
  | some (.num q) => .ok q
  | none => .error .keyError
  | some _ => .error .typeError

/-- Read an optional boolean key. -/
def decOptBoolKey (fs : List (Str × JVal)) (key : Str) :
    Except PyError (Option Bool) :=
  match findVal fs key with
  | none => .ok none
  | some (.bool b) => .ok (some b)
  | some _ => .error .typeError

/-- Read a string-or-null key (the deadline field). -/
def decNullStrKey (fs : List (Str × JVal)) (key : Str) :
    Except PyError (Option Str) :=
  match findVal fs key with
  | none => .ok none
  | some .null => .ok none
  | some (.str s) => .ok (some s)
  | some _ => .error .typeError

/-- Read a mandatory integer-valued number key. -/
def decIntKey (fs : List (Str × JVal)) (key : Str) : Except PyError Int :=
  match findVal fs key with
  | some (.num q) => if q.den = 1 then .ok q.num else .error .typeError
  | none => .error .keyError
  | some _ => .error .typeError

/-- Decode every element of a JSON array. -/
def decodeArr {α : Type} (f : JVal → Except PyError α) :
    List JVal → Except PyError (List α)
  | [] => .ok []
  | x :: xs => do
    let a ← f x
    let as ← decodeArr f xs
    .ok (a :: as)

/-- Decode a contribution entry. -/
def decodeContribution (j : JVal) : Except PyError Contribution :=
  match j with
  | .obj fs => do
    let a ← decNumKey fs "amount".data
    let d ← decStrKey fs "date".data
    .ok ⟨a, d⟩
  | _ => .error .typeError

/-- Decode an income dictionary (the typed view of the verbatim data
Python keeps after import). -/
def decodeIncome (j : JVal) : Except PyError IncomeRec :=
  match j with
  | .obj fs => do
    let id ← decOptStrKey fs "id".data
    let amount ← decNumKey fs "amount".data
    let description ← decStrKey fs "description".data
    let date ← decStrKey fs "date".data
    let source ← decStrKey fs "source".data
    let frequency ← decStrKey fs "frequency".data
    let is_target ← decOptBoolKey fs "is_target".data
    .ok { id := id, amount := amount, description := description, date := date,
          source := source, frequency := frequency, is_target := is_target }
  | _ => .error .typeError

/-- Decode an expense dictionary. -/
def decodeExpense (j : JVal) : Except PyError ExpenseRec :=
  match j with
  | .obj fs => do
    let id ← decOptStrKey fs "id".data
    let amount ← decNumKey fs "amount".data
    let description ← decStrKey fs "description".data
    let date ← decStrKey fs "date".data
    let category ← decStrKey fs "category".data
    let subcategory ← decStrKey fs "subcategory".data
    let is_recurring ← decOptBoolKey fs "is_recurring".data
    .ok { id := id, amount := amount, description := description, date := date,
          category := category, subcategory := subcategory,
          is_recurring := is_recurring }
  | _ => .error .typeError

/-- Decode the optional contributions key of a goal dictionary. -/
def decOptContribs (fs : List (Str × JVal)) :
    Except PyError (Option (List Contribution)) :=
  match findVal fs "contributions".data with
  | none => .ok none
  | some (.arr xs) => do
    let cs ← decodeArr decodeContribution xs
    .ok (some cs)
  | some _ => .error .typeError

/-- Decode a goal dictionary. -/
def decodeGoal (j : JVal) : Except PyError GoalRec :=
  match j with
  | .obj fs => do
    let id ← decOptStrKey fs "id".data
    let name ← decStrKey fs "name".data
    let target_amount ← decNumKey fs "target_amount".data
    let current_amount ← decNumKey fs "current_amount".data
    let category ← decStrKey fs "category".data
    let deadline ← decNullStrKey fs "deadline".data
    let priority ← decIntKey fs "priority".data
    let contributions ← decOptContribs fs
    .ok { id := id, name := name, target_amount := target_amount,
          current_amount := current_amount, category := category,
          deadline := deadline, priority := priority,
          contributions := contributions }
  | _ => .error .typeError

/-- Decode a whole structured document: FinanceManager.import_data first
checks that the three required top-level keys are present (ValueError
when not, the FormatError of the design) and otherwise installs the data.
Python installs the data verbatim; the typed view additionally requires
each collection to have the shapes the program itself produces. -/
def decodeLedger (j : JVal) : Except PyError Ledger :=
  match j with
  | .obj fs =>
    if (findVal fs "incomes".data).isSome && (findVal fs "expenses".data).isSome &&
        (findVal fs "savings_goals".data).isSome then do
      let incomes ← match findVal fs "incomes".data with
        | some (.arr xs) => decodeArr decodeIncome xs
        | _ => .error .typeError
      let expenses ← match findVal fs "expenses".data with
        | some (.arr xs) => decodeArr decodeExpense xs
        | _ => .error .typeError
      let savings_goals ← match findVal fs "savings_goals".data with
        | some (.arr xs) => decodeArr decodeGoal xs
        | _ => .error .typeError
      let version ← decOptStrKey fs "version".data
      .ok { incomes := incomes, expenses := expenses,
            savings_goals := savings_goals, version := version }
    else .error .valueError
  | _ => .error .typeError

/-- FinanceManager.import_data on a structured document: the in-memory
ledger is replaced only after decoding and validation succeed. -/
def import_data_json (st : Ledger) (j : JVal) : Ledger × Except PyError Unit :=
  match decodeLedger j with
  | .error e => (st, .error e)
  | .ok d => (d, .ok ())

/-- The header row of the tabular export. -/
def stdHeader : List Str :=
  ["Type".data, "Amount".data, "Description".data, "Date".data,
   "Category".data, "Details".data]

/-- The Details cell written for an income row. -/
def incomeDetails (frequency : Str) (is_target : Bool) : Str :=
  "Frequency: ".data ++ frequency ++ ", Target: ".data ++ pyBoolStr is_target

/-- The tabular row written for an income dictionary; a missing
is_target key raises KeyError inside the f-string. -/
def incomeRow (i : IncomeRec) : Except PyError (List Str) :=
  match i.is_target with
  | none => .error .keyError
  | some t =>
    .ok ["Income".data, floatRepr i.amount, i.description, i.date, i.source,
         incomeDetails i.frequency t]

/-- The tabular row written for an expense dictionary; is_recurring is
read with dict.get and defaults to False. -/
def expenseRow (e : ExpenseRec) : List Str :=
  ["Expense".data, floatRepr e.amount, e.description, e.date,
   e.category ++ '/' :: e.subcategory,
   "Recurring: ".data ++ pyBoolStr (e.is_recurring.getD false)]

/-- The tabular row written for a goal dictionary; deadline is read with
dict.get, and both a missing key and None come out as the empty cell. -/
def goalRow (g : GoalRec) : List Str :=
  ["Savings Goal".data,
   floatRepr g.current_amount ++ '/' :: floatRepr g.target_amount,
   g.name, g.deadline.getD [], g.category,
   "Priority: ".data ++ intRepr g.priority]

/-- The income rows of the export, in ledger order. -/
def incomeRowsM : List IncomeRec → Except PyError (List (List Str))
  | [] => .ok []
  | i :: rest => do
    let r ← incomeRow i
    let rs ← incomeRowsM rest
    .ok (r :: rs)

/-- FinanceManager._export_to_csv: the header row followed by one row
per income, expense and goal, in that order. -/
def export_to_csv (l : Ledger) : Except PyError (List (List Str)) := do
  let irs ← incomeRowsM l.incomes
  .ok (stdHeader ::
    (irs ++ l.expenses.map expenseRow ++ l.savings_goals.map goalRow))

/-- csv.DictReader cell lookup: the named column's position in the
header row indexes into the data row; a column name absent from the
header raises KeyError, and a row shorter than the header yields None. -/
def rowGet (hdr r : List Str) (name : Str) : Except PyError (Option Str) :=
  match hdr.findIdx? (fun h => h == name) with
  | none => .error .keyError
  | some i => .ok r[i]?

/-- A cell whose value Python goes on to use as a string or number: a
None cell from a short row makes that use raise.  CPython raises
TypeError or AttributeError depending on the operation; the model uses
one class for all of them, and no claim distinguishes the two. -/
def reqCell (hdr r : List Str) (name : Str) : Except PyError Str := do
  let c ← rowGet hdr r name
  match c with
  | none => .error .typeError
  | some s => .ok s

/-- float() applied to a string, raising ValueError on a non-numeric one. -/
def floatOf (s : Str) : Except PyError Rat :=
  match floatParse s with
  | none => .error .valueError
  | some q => .ok q

/-- A cell parsed with float(). -/
def floatCell (hdr r : List Str) (name : Str) : Except PyError Rat := do
  let s ← reqCell hdr r name
  floatOf s

/-- Details-cell frequency extraction: split on comma, take the first
segment, split that on colon and take index 1 (IndexError when no colon
is present), then strip. -/
def freqFromDetails (d : Str) : Except PyError Str :=
  match (splitOnChar ':' ((splitOnChar ',' d).headD []))[1]? with
  | none => .error .indexError
  | some s => .ok (stripStr s)

/-- Details-cell priority extraction: split on colon, take index 1,
strip, and parse with int(). -/
def priorityFromDetails (d : Str) : Except PyError Int :=
  match (splitOnChar ':' d)[1]? with
  | none => .error .indexError
  | some s =>
    match intParse (stripStr s) with
    | none => .error .valueError
    | some z => .ok z

/-- The outcome of one CSV data row. -/
inductive RowItem
  | inc (i : IncomeRec)
  | exp (e : ExpenseRec)
  | goal (g : GoalRec)
  | skip
deriving Repr, DecidableEq

/-- The Expense branch of the row dispatch, after the Category cell has
been split on the slash: the tuple unpacking demands exactly two parts
and raises ValueError otherwise. -/
def expenseFromParts (hdr r : List Str) (parts : List Str) :
    Except PyError RowItem :=
  match parts with
  | [category, subcategory] => do
    let amount ← floatCell hdr r "Amount".data
    let description ← reqCell hdr r "Description".data
    let date ← reqCell hdr r "Date".data
    let details ← reqCell hdr r "Details".data
    .ok (.exp { id := none, amount := amount, description := description,
                date := date, category := category,
                subcategory := subcategory,
                is_recurring := some (hasSub "True".data details) })
  | _ => .error .valueError

/-- The Savings Goal branch of the row dispatch, after the Amount cell
has been split on the slash: unpacking map(float, parts) demands exactly
two parts, both numeric. -/
def goalFromParts (hdr r : List Str) (parts : List Str) :
    Except PyError RowItem :=
  match parts with
  | [curS, tgtS] => do
    let current ← floatOf curS
    let target ← floatOf tgtS
    let name ← reqCell hdr r "Description".data
    let category ← reqCell hdr r "Category".data
    let dateCell ← rowGet hdr r "Date".data
    let deadline := match dateCell with
      | none => none
      | some [] => none
      | some d => some d
    let details ← reqCell hdr r "Details".data
    let priority ← priorityFromDetails details
    .ok (.goal { id := none, name := name, target_amount := target,
                 current_amount := current, category := category,
                 deadline := deadline, priority := priority,
                 contributions := none })
  | _ => .error .valueError

/-- Process one non-blank CSV row, following the Type dispatch of
FinanceManager._import_from_csv and its evaluation order; a Type value
other than the three recognized ones falls through every branch, so the
row is silently skipped. -/
def parseRow (hdr r : List Str) : Except PyError RowItem := do
  let ty ← rowGet hdr r "Type".data
  if ty = some "Income".data then do
    let amount ← floatCell hdr r "Amount".data
    let description ← reqCell hdr r "Description".data
    let date ← reqCell hdr r "Date".data
    let source ← reqCell hdr r "Category".data
    let details ← reqCell hdr r "Details".data
    let frequency ← freqFromDetails details
    .ok (.inc { id := none, amount := amount, description := description,
                date := date, source := source, frequency := frequency,
                is_target := some (hasSub "True".data details) })
  else if ty = some "Expense".data then do
    let cat ← reqCell hdr r "Category".data
    expenseFromParts hdr r (splitOnChar '/' cat)
  else if ty = some "Savings Goal".data then do
    let amtCell ← reqCell hdr r "Amount".data
    goalFromParts hdr r (splitOnChar '/' amtCell)
  else
    .ok .skip

/-- The collections accumulated by the CSV importer: the dictionary
_import_from_csv returns (it never carries a version key). -/
structure CSVData where
  incomes : List IncomeRec
  expenses : List ExpenseRec
  savings_goals : List GoalRec
deriving Repr, DecidableEq

/-- Prepend a parsed row outcome onto the collections built from the
remaining rows (equivalently, rows are appended in file order). -/
def consItem (it : RowItem) (d : CSVData) : CSVData :=
  match it with
  | .inc i => { d with incomes := i :: d.incomes }
  | .exp e => { d with expenses := e :: d.expenses }
  | .goal g => { d with savings_goals := g :: d.savings_goals }
  | .skip => d

/-- Process the data rows in order; blank rows are skipped by
DictReader, and the first error aborts the whole import. -/
def importRows (hdr : List Str) : List (List Str) → Except PyError CSVData
  | [] => .ok ⟨[], [], []⟩
  | r :: rest =>
    if r.isEmpty then importRows hdr rest
    else do
      let it ← parseRow hdr r
      let d ← importRows hdr rest
      .ok (consItem it d)

/-- FinanceManager._import_from_csv on a whole tabular file: the first
row is the DictReader header; an empty file yields empty collections. -/
def importCSVFile (rows : List (List Str)) : Except PyError CSVData :=
  match rows with
  | [] => .ok ⟨[], [], []⟩
  | hdr :: rest => importRows hdr rest

/-- The ledger import_data installs from a CSV file: the three required
keys are present by construction and there is no version key. -/
def csvDataLedger (d : CSVData) : Ledger :=
  { incomes := d.incomes, expenses := d.expenses,
    savings_goals := d.savings_goals, version := none }

/-- FinanceManager.import_data on a CSV path: the in-memory ledger is
replaced only when the whole file parses. -/
def import_data_csv (st : Ledger) (rows : List (List Str)) :
    Ledger × Except PyError Unit :=
  match importCSVFile rows with
  | .error e => (st, .error e)
  | .ok d => (csvDataLedger d, .ok ())

/-- CSV export followed by CSV import of the produced file. -/
def csvRoundTrip (l : Ledger) : Except PyError Ledger := do
  let rows ← export_to_csv l
  let d ← importCSVFile rows
  .ok (csvDataLedger d)

/-- The cells of the exported income row, given the is_target value. -/
def incomeRowCells (i : IncomeRec) (t : Bool) : List Str :=
  ["Income".data, floatRepr i.amount, i.description, i.date, i.source,
   incomeDetails i.frequency t]

/-- Componentwise concatenation of the accumulated collections. -/
def catData (a b : CSVData) : CSVData :=
  ⟨a.incomes ++ b.incomes, a.expenses ++ b.expenses,
   a.savings_goals ++ b.savings_goals⟩

/-- Well-formedness of a ledger for the tabular codec: the data-model
record shapes (boolean flags present, enum-valued frequency), slash-free
expense category and subcategory, nonempty deadline strings, and amounts
whose denominators divide a power of ten (true of every Python float). -/
def csvExportable (l : Ledger) : Prop :=
  (∀ i ∈ l.incomes, i.is_target.isSome ∧ i.frequency ∈ freqStrs ∧
    i.amount.den ∣ 10 ^ kOf i.amount.den) ∧
  (∀ e ∈ l.expenses, e.is_recurring.isSome ∧ ('/' : Char) ∉ e.category ∧
    ('/' : Char) ∉ e.subcategory ∧ e.amount.den ∣ 10 ^ kOf e.amount.den) ∧
  (∀ g ∈ l.savings_goals, g.current_amount.den ∣ 10 ^ kOf g.current_amount.den ∧
    g.target_amount.den ∣ 10 ^ kOf g.target_amount.den ∧ g.deadline ≠ some [])

instance decCsvExportable (l : Ledger) : Decidable (csvExportable l) := by
  unfold csvExportable
  infer_instance

/-! Concrete data for counterexamples and witnesses. -/

def sampleIncome : IncomeRec :=
  { id := some "i1".data, amount := 100, description := "Job pay".data,
    date := "2026-01-02".data, source := "Job".data,
    frequency := "monthly".data, is_target := some false }

def sampleExpense : ExpenseRec :=
  { id := some "e1".data, amount := 30, description := "sw".data,
    date := "2026-01-03".data, category := "business".data,
    subcategory := "software".data, is_recurring := some true }

def sampleGoal : GoalRec :=
  { id := some "g1".data, name := "Laptop".data, target_amount := 1000,
    current_amount := 350, category := "electronics".data, deadline := none,
    priority := 2, contributions := some [⟨250, "2026-01-04".data⟩] }

def sampleLedger : Ledger :=
  { incomes := [sampleIncome], expenses := [sampleExpense],
    savings_goals := [sampleGoal], version := some "0.0.1".data }

/-- A ledger whose only expense has a slash inside its subcategory. -/
def cexExpenseLedger : Ledger :=
  { incomes := [], expenses := [{ sampleExpense with subcategory := "a/b".data }],
    savings_goals := [], version := none }

/-- A ledger with one goal carrying a nonempty contribution history. -/
def cexGoalLedger : Ledger :=
  { incomes := [], expenses := [], savings_goals := [sampleGoal],
    version := some "0.0.1".data }

/-- A data row whose Category cell has no slash: its decode raises. -/
def badExpenseRow : List Str :=
  ["Expense".data, "10.0".data, "d".data, "2026-01-01".data,
   "noslash".data, "Recurring: False".data]

/-! Auxiliary lemmas about the digit machinery. -/

theorem toDigitChar_mem {d : Nat} (hd : d < 10) : toDigitChar d ∈ digitChars := by
  interval_cases d <;> decide

theorem ofDigitChar_toDigitChar {d : Nat} (hd : d < 10) :
    ofDigitChar (toDigitChar d) = some d := by
  interval_cases d <;> decide

theorem mem_digitChars_isSome {c : Char} (h : c ∈ digitChars) :
    (ofDigitChar c).isSome = true := by
  simp only [digitChars, List.mem_cons, List.not_mem_nil, or_false] at h
  rcases h with rfl | rfl | rfl | rfl | rfl | rfl | rfl | rfl | rfl | rfl <;> decide

theorem natReprAux_mem {c : Char} :
    ∀ fuel n : Nat, c ∈ natReprAux fuel n → c ∈ digitChars := by
  intro fuel
  induction fuel with
  | zero => intro n h; simp [natReprAux] at h
  | succ f ih =>
    intro n h
    rw [natReprAux] at h
    by_cases hn : n = 0
    · simp [hn] at h
    · rw [if_neg hn] at h
      rcases List.mem_append.mp h with h1 | h2
      · exact ih _ h1
      · have : c = toDigitChar (n % 10) := by simpa using h2
        rw [this]
        exact toDigitChar_mem (Nat.mod_lt _ (by omega))

theorem natRepr_mem {c : Char} {n : Nat} (h : c ∈ natRepr n) : c ∈ digitChars := by
  rw [natRepr] at h
  by_cases hn : n = 0
  · rw [if_pos hn] at h
    simp at h
    rw [h]; decide
  · rw [if_neg hn] at h
    exact natReprAux_mem _ _ h

theorem digitsVal_foldl (l : Str) (a : Nat) :
    l.foldl (fun x c => x * 10 + digitVal c) a = a * 10 ^ l.length + digitsVal l := by
  induction l generalizing a with
  | nil => simp [digitsVal]
  | cons c t ih =>
    rw [digitsVal, List.foldl_cons, List.foldl_cons, ih, ih]
    ring_nf
    simp [Nat.pow_succ]
    ring

theorem digitsVal_append (l₁ l₂ : Str) :
    digitsVal (l₁ ++ l₂) = digitsVal l₁ * 10 ^ l₂.length + digitsVal l₂ := by
  rw [digitsVal, List.foldl_append, digitsVal_foldl]
  rfl

theorem digitsVal_natReprAux :
    ∀ fuel n : Nat, n ≤ fuel → digitsVal (natReprAux fuel n) = n := by
  intro fuel
  induction fuel with
  | zero => intro n h; interval_cases n; simp [natReprAux, digitsVal]
  | succ f ih =>
    intro n h
    rw [natReprAux]
    by_cases hn : n = 0
    · simp [hn, digitsVal]
    · rw [if_neg hn, digitsVal_append, ih (n / 10) (by omega)]
      have h10 : n % 10 < 10 := Nat.mod_lt _ (by omega)
      have : digitsVal [toDigitChar (n % 10)] = n % 10 := by
        simp [digitsVal, digitVal, ofDigitChar_toDigitChar h10]
      rw [this]
      have := Nat.div_add_mod n 10
      simp
      omega

theorem allDigits_of_mem {l : Str} (h : ∀ c ∈ l, c ∈ digitChars) :
    allDigits l = true := by
  rw [allDigits, List.all_eq_true]
  intro c hc
  exact mem_digitChars_isSome (h c hc)

theorem natReprAux_ne_nil {fuel n : Nat} (hn : n ≠ 0) (hf : fuel ≠ 0) :
    natReprAux fuel n ≠ [] := by
  cases fuel with
  | zero => omega
  | succ f =>
    rw [natReprAux, if_neg hn]
    simp

theorem natRepr_ne_nil (n : Nat) : natRepr n ≠ [] := by
  rw [natRepr]
  by_cases hn : n = 0
  · simp [hn]
  · rw [if_neg hn]
    exact natReprAux_ne_nil hn hn

theorem natReprAux_length :
    ∀ fuel n k : Nat, n ≤ fuel → n < 10 ^ k → (natReprAux fuel n).length ≤ k := by
  intro fuel
  induction fuel with
  | zero => intro n k h _; interval_cases n; simp [natReprAux]
  | succ f ih =>
    intro n k h hk
    rw [natReprAux]
    by_cases hn : n = 0
    · simp [hn]
    · rw [if_neg hn]
      have hkpos : k ≠ 0 := by
        intro h0
        rw [h0] at hk
        simp at hk
        omega
      have hdiv : n / 10 < 10 ^ (k - 1) := by
        rw [Nat.div_lt_iff_lt_mul (by omega)]
        calc n < 10 ^ k := hk
        _ = 10 ^ (k - 1) * 10 := by
            rw [← Nat.pow_succ]
            congr 1
            omega
      have := ih (n / 10) (k - 1) (by omega) hdiv
      simp
      omega

theorem natRepr_length_le {n k : Nat} (hk : 1 ≤ k) (h : n < 10 ^ k) :
    (natRepr n).length ≤ k := by
  rw [natRepr]
  by_cases hn : n = 0
  · simp [hn]; omega
  · rw [if_neg hn]
    exact natReprAux_length n n k le_rfl h

theorem parseNat_natRepr (n : Nat) : parseNat (natRepr n) = some n := by
  by_cases hn : n = 0
  · rw [hn]; decide
  · rw [parseNat]
    have hne := natRepr_ne_nil n
    have hdig : allDigits (natRepr n) = true :=
      allDigits_of_mem (fun c hc => natRepr_mem hc)
    have hval : digitsVal (natRepr n) = n := by
      rw [natRepr, if_neg hn]
      exact digitsVal_natReprAux n n le_rfl
    simp [hne, hdig, hval]

theorem digitsVal_replicate_zero (m : Nat) :
    digitsVal (List.replicate m '0') = 0 := by
  induction m with
  | zero => rfl
  | succ k ih =>
    rw [List.replicate_succ, digitsVal, List.foldl_cons]
    have : digitVal '0' = 0 := by decide
    simpa [digitsVal, this] using ih

theorem digitsVal_padZeros (k : Nat) (l : Str) :
    digitsVal (padZeros k l) = digitsVal l := by
  rw [padZeros, digitsVal_append, digitsVal_replicate_zero]
  simp

theorem padZeros_mem {k : Nat} {l : Str} {c : Char} (h : c ∈ padZeros k l) :
    c = '0' ∨ c ∈ l := by
  rw [padZeros] at h
  rcases List.mem_append.mp h with h1 | h2
  · exact Or.inl (List.eq_of_mem_replicate h1)
  · exact Or.inr h2

theorem padZeros_length {k : Nat} {l : Str} (h : l.length ≤ k) :
    (padZeros k l).length = k := by
  rw [padZeros]
  simp
  omega

/-! Auxiliary lemmas about splitOnChar. -/

theorem splitOnChar_ne_nil (sep : Char) (l : Str) : splitOnChar sep l ≠ [] := by
  induction l with
  | nil => simp [splitOnChar]
  | cons c rest ih =>
    rw [splitOnChar]
    by_cases h : c = sep
    · simp [h]
    · rw [if_neg h]
      rcases hs : splitOnChar sep rest with _ | ⟨hd, tl⟩
      · simp
      · simp

theorem splitOnChar_not_mem {sep : Char} {l : Str} (h : sep ∉ l) :
    splitOnChar sep l = [l] := by
  induction l with
  | nil => rfl
  | cons c rest ih =>
    have hc : c ≠ sep := fun hh => h (hh ▸ List.mem_cons_self c rest)
    have hrest : sep ∉ rest := fun hh => h (List.mem_cons_of_mem c hh)
    rw [splitOnChar, if_neg hc, ih hrest]

theorem splitOnChar_pair {sep : Char} {a b : Str} (ha : sep ∉ a) (hb : sep ∉ b) :
    splitOnChar sep (a ++ sep :: b) = [a, b] := by
  induction a with
  | nil =>
    rw [List.nil_append, splitOnChar, if_pos rfl, splitOnChar_not_mem hb]
  | cons c rest ih =>
    have hc : c ≠ sep := fun hh => ha (hh ▸ List.mem_cons_self c rest)
    have hrest : sep ∉ rest := fun hh => ha (List.mem_cons_of_mem c hh)
    rw [List.cons_append, splitOnChar, if_neg hc, ih hrest]

theorem splitOnChar_length_count (sep : Char) (l : Str) :
    (splitOnChar sep l).length = l.count sep + 1 := by
  induction l with
  | nil => simp [splitOnChar]
  | cons c rest ih =>
    rw [splitOnChar]
    by_cases h : c = sep
    · rw [if_pos h, h]
      simp [List.count_cons]
      omega
    · rw [if_neg h]
      rcases hs : splitOnChar sep rest with _ | ⟨hd, tl⟩
      · exact absurd hs (splitOnChar_ne_nil sep rest)
      · rw [hs] at ih
        have hcount : (c :: rest).count sep = rest.count sep := by
          simp [List.count_cons, h]
        simp only [List.length_cons] at ih ⊢
        omega

/-! Auxiliary lemmas about stripStr. -/

theorem stripStr_no_ws {s : Str} (h : ∀ c ∈ s, isWS c = false) :
    stripStr s = s := by
  have h1 : s.dropWhile isWS = s := by
    cases s with
    | nil => rfl
    | cons c rest =>
      rw [List.dropWhile_cons, h c (List.mem_cons_self c rest)]
      simp
  rw [stripStr, h1]
  have h2 : s.reverse.dropWhile isWS = s.reverse := by
    cases hr : s.reverse with
    | nil => rfl
    | cons c rest =>
      have hc : c ∈ s := by
        rw [← List.mem_reverse, hr]
        exact List.mem_cons_self c rest
      rw [List.dropWhile_cons, h c hc]
      simp
  rw [h2, List.reverse_reverse]

theorem stripStr_cons_space (s : Str) : stripStr (' ' :: s) = stripStr s := by
  rw [stripStr, stripStr, List.dropWhile_cons]
  norm_num [isWS, wsChars]

/-! Print and parse round trips for numbers. -/

theorem digitsVal_natRepr (n : Nat) : digitsVal (natRepr n) = n := by
  rw [natRepr]
  by_cases hn : n = 0
  · simp [hn]
    decide
  · rw [if_neg hn]
    exact digitsVal_natReprAux n n le_rfl

theorem intRepr_mem {c : Char} {z : Int} (h : c ∈ intRepr z) :
    c = '-' ∨ c ∈ digitChars := by
  rw [intRepr] at h
  rcases List.mem_append.mp h with h1 | h2
  · by_cases hz : z < 0
    · rw [if_pos hz] at h1
      simp at h1
      exact Or.inl h1
    · rw [if_neg hz] at h1
      simp at h1
  · exact Or.inr (natRepr_mem h2)

theorem floatRepr_mem {c : Char} {q : Rat} (h : c ∈ floatRepr q) :
    c = '-' ∨ c = '.' ∨ c ∈ digitChars := by
  simp only [floatRepr] at h
  rcases List.mem_append.mp h with h1 | h2
  · by_cases hz : q.num < 0
    · rw [if_pos hz] at h1
      simp at h1
      exact Or.inl h1
    · rw [if_neg hz] at h1
      simp at h1
  · rcases List.mem_append.mp h2 with h3 | h4
    · exact Or.inr (Or.inr (natRepr_mem h3))
    · rcases List.mem_cons.mp h4 with h5 | h6
      · exact Or.inr (Or.inl h5)
      · rcases padZeros_mem h6 with h7 | h8
        · refine Or.inr (Or.inr ?_)
          rw [h7]
          decide
        · exact Or.inr (Or.inr (natRepr_mem h8))

theorem dash_not_mem_natRepr (n : Nat) : '-' ∉ natRepr n := by
  intro h
  have := natRepr_mem h
  simp [digitChars] at this

theorem intParse_intRepr (z : Int) : intParse (intRepr z) = some z := by
  by_cases hz : z < 0
  · have : intRepr z = '-' :: natRepr z.natAbs := by
      rw [intRepr, if_pos hz]
      rfl
    rw [this, intParse, if_pos rfl, parseNat_natRepr]
    exact congrArg some (show -((z.natAbs : Nat) : Int) = z by omega)
  · have hrepr : intRepr z = natRepr z.natAbs := by
      rw [intRepr, if_neg hz]
      rfl
    rcases hs : natRepr z.natAbs with _ | ⟨c, rest⟩
    · exact absurd hs (natRepr_ne_nil _)
    · have hc : c ≠ '-' := by
        intro hcc
        apply dash_not_mem_natRepr z.natAbs
        rw [hs, ← hcc]
        exact List.mem_cons_self c rest
      rw [hrepr, hs, intParse, if_neg hc, ← hs, parseNat_natRepr]
      exact congrArg some (show ((z.natAbs : Nat) : Int) = z by omega)

theorem dot_not_mem_natRepr (n : Nat) : '.' ∉ natRepr n := by
  intro h
  have := natRepr_mem h
  simp [digitChars] at this

theorem dot_not_mem_padZeros (k n : Nat) : '.' ∉ padZeros k (natRepr n) := by
  intro h
  rcases padZeros_mem h with h1 | h2
  · simp at h1
  · exact dot_not_mem_natRepr n h2

theorem floatParseAbs_body (i f kk : Nat) (hf : (natRepr f).length ≤ kk) :
    floatParseAbs (natRepr i ++ '.' :: padZeros kk (natRepr f)) =
      some ((i : Rat) + (f : Rat) / (10 : Rat) ^ kk) := by
  have hsplit := splitOnChar_pair (dot_not_mem_natRepr i) (dot_not_mem_padZeros kk f)
  rw [floatParseAbs]
  have hd1 : allDigits (natRepr i) = true :=
    allDigits_of_mem (fun c hc => natRepr_mem hc)
  have hd2 : allDigits (padZeros kk (natRepr f)) = true := by
    refine allDigits_of_mem (fun c hc => ?_)
    rcases padZeros_mem hc with h1 | h2
    · rw [h1]; decide
    · exact natRepr_mem h2
  have hne : (natRepr i).isEmpty = false := by
    rcases hs : natRepr i with _ | ⟨c, rest⟩
    · exact absurd hs (natRepr_ne_nil _)
    · rfl
  simp only [hsplit, hd1, hd2, hne, Bool.true_and, Bool.false_and,
    Bool.not_false, Bool.and_true, if_true]
  rw [digitsVal_natRepr, digitsVal_padZeros, digitsVal_natRepr,
    padZeros_length hf]

theorem floatParse_floatRepr (q : Rat) (h : q.den ∣ 10 ^ kOf q.den) :
    floatParse (floatRepr q) = some q := by
  have hden : 0 < q.den := q.pos
  set kk := max (kOf q.den) 1 with hkk
  have hkk1 : 1 ≤ kk := le_max_right _ _
  have hdvd : q.den ∣ 10 ^ kk := h.trans (pow_dvd_pow 10 (le_max_left _ _))
  set m := q.num.natAbs * 10 ^ kk / q.den with hm
  have hdvd2 : q.den ∣ q.num.natAbs * 10 ^ kk := Dvd.dvd.mul_left hdvd q.num.natAbs
  have hmd : m * q.den = q.num.natAbs * 10 ^ kk := Nat.div_mul_cancel hdvd2
  have hpow : 0 < 10 ^ kk := Nat.pos_pow_of_pos kk (by omega)
  have hF : m % 10 ^ kk < 10 ^ kk := Nat.mod_lt _ hpow
  have hIF : m / 10 ^ kk * 10 ^ kk + m % 10 ^ kk = m := by
    rw [Nat.mul_comm]
    exact Nat.div_add_mod m (10 ^ kk)
  have hlen : (natRepr (m % 10 ^ kk)).length ≤ kk :=
    natRepr_length_le hkk1 hF
  have habs := floatParseAbs_body (m / 10 ^ kk) (m % 10 ^ kk) kk hlen
  have hval : ((m / 10 ^ kk : Nat) : Rat) + ((m % 10 ^ kk : Nat) : Rat) / (10 : Rat) ^ kk
      = (q.num.natAbs : Rat) / (q.den : Rat) := by
    have h10 : ((10 : Rat) ^ kk) ≠ 0 := by positivity
    have hdr : ((q.den : Nat) : Rat) ≠ 0 := by
      exact_mod_cast hden.ne.symm
    have hcast : ((m / 10 ^ kk : Nat) : Rat) * (10 : Rat) ^ kk + ((m % 10 ^ kk : Nat) : Rat)
        = (m : Rat) := by
      exact_mod_cast congrArg (fun n : Nat => (n : Rat)) hIF
    have hcast2 : (m : Rat) * (q.den : Rat) = (q.num.natAbs : Rat) * (10 : Rat) ^ kk := by
      exact_mod_cast congrArg (fun n : Nat => (n : Rat)) hmd
    field_simp
    linear_combination (q.den : Rat) * hcast + hcast2
  by_cases hneg : q.num < 0
  · have hrepr : floatRepr q = '-' :: (natRepr (m / 10 ^ kk) ++ '.' ::
        padZeros kk (natRepr (m % 10 ^ kk))) := by
      simp only [floatRepr, ← hkk, ← hm, if_pos hneg]
      rfl
    rw [hrepr, floatParse, if_pos rfl, habs]
    have hq : ((q.num.natAbs : Rat) / (q.den : Rat)) = -q := by
      have hnum : ((q.num.natAbs : Rat)) = -(q.num : Rat) := by
        rw [Int.cast_natAbs, abs_of_neg hneg]
        push_cast
        ring
      rw [hnum, neg_div, Rat.num_div_den]
    rw [hval, hq]
    simp
  · have hrepr : floatRepr q = natRepr (m / 10 ^ kk) ++ '.' ::
        padZeros kk (natRepr (m % 10 ^ kk)) := by
      simp only [floatRepr, ← hkk, ← hm, if_neg hneg]
      rfl
    rcases hs : natRepr (m / 10 ^ kk) with _ | ⟨c, rest⟩
    · exact absurd hs (natRepr_ne_nil _)
    · have hc : c ≠ '-' := by
        intro hcc
        apply dash_not_mem_natRepr (m / 10 ^ kk)
        rw [hs, ← hcc]
        exact List.mem_cons_self c rest
      rw [hrepr, hs, List.cons_append, floatParse, if_neg hc, ← List.cons_append, ← hs,
        habs, hval]
      have hq : ((q.num.natAbs : Rat) / (q.den : Rat)) = q := by
        have hnum : ((q.num.natAbs : Rat)) = (q.num : Rat) := by
          rw [Int.cast_natAbs, abs_of_nonneg (not_lt.mp hneg)]
        rw [hnum, Rat.num_div_den]
      rw [hq]

theorem floatOf_repr (q : Rat) (h : q.den ∣ 10 ^ kOf q.den) :
    floatOf (floatRepr q) = .ok q := by
  rw [floatOf, floatParse_floatRepr q h]

/-! Reduction lemmas for Except binds and canonical-header cell lookups. -/

@[simp] theorem pbind_ok {α β : Type} (a : α) (f : α → Except PyError β) :
    (Except.ok a >>= f) = f a := rfl

@[simp] theorem pbind_error {α β : Type} (e : PyError) (f : α → Except PyError β) :
    ((Except.error e : Except PyError α) >>= f) = Except.error e := rfl

@[simp] theorem rowGet_type6 (c0 c1 c2 c3 c4 c5 : Str) :
    rowGet stdHeader [c0, c1, c2, c3, c4, c5] "Type".data = .ok (some c0) := rfl

@[simp] theorem rowGet_date6 (c0 c1 c2 c3 c4 c5 : Str) :
    rowGet stdHeader [c0, c1, c2, c3, c4, c5] "Date".data = .ok (some c3) := rfl

@[simp] theorem reqCell_amount6 (c0 c1 c2 c3 c4 c5 : Str) :
    reqCell stdHeader [c0, c1, c2, c3, c4, c5] "Amount".data = .ok c1 := rfl

@[simp] theorem reqCell_desc6 (c0 c1 c2 c3 c4 c5 : Str) :
    reqCell stdHeader [c0, c1, c2, c3, c4, c5] "Description".data = .ok c2 := rfl

@[simp] theorem reqCell_date6 (c0 c1 c2 c3 c4 c5 : Str) :
    reqCell stdHeader [c0, c1, c2, c3, c4, c5] "Date".data = .ok c3 := rfl

@[simp] theorem reqCell_cat6 (c0 c1 c2 c3 c4 c5 : Str) :
    reqCell stdHeader [c0, c1, c2, c3, c4, c5] "Category".data = .ok c4 := rfl

@[simp] theorem reqCell_details6 (c0 c1 c2 c3 c4 c5 : Str) :
    reqCell stdHeader [c0, c1, c2, c3, c4, c5] "Details".data = .ok c5 := rfl

/-! Character-class facts about the numeric reprs. -/

theorem isWS_digit {c : Char} (h : c ∈ digitChars) : isWS c = false := by
  simp only [digitChars, List.mem_cons, List.not_mem_nil, or_false] at h
  rcases h with rfl | rfl | rfl | rfl | rfl | rfl | rfl | rfl | rfl | rfl <;> decide

theorem intRepr_no_ws (z : Int) : ∀ c ∈ intRepr z, isWS c = false := by
  intro c hc
  rcases intRepr_mem hc with h1 | h2
  · rw [h1]; decide
  · exact isWS_digit h2

theorem colon_not_mem_intRepr (z : Int) : (':' : Char) ∉ intRepr z := by
  intro h
  rcases intRepr_mem h with h1 | h2
  · exact absurd h1 (by decide)
  · have hd : (':' : Char) ∉ digitChars := by decide
    exact hd h2

theorem slash_not_mem_floatRepr (q : Rat) : ('/' : Char) ∉ floatRepr q := by
  intro h
  rcases floatRepr_mem h with h1 | h2 | h3
  · exact absurd h1 (by decide)
  · exact absurd h2 (by decide)
  · have hd : ('/' : Char) ∉ digitChars := by decide
    exact hd h3

/-! The composite Details cells decode back to the encoded values. -/

theorem freq_details {f : Str} (hf : f ∈ freqStrs) (b : Bool) :
    freqFromDetails (incomeDetails f b) = .ok f ∧
      hasSub "True".data (incomeDetails f b) = b := by
  simp only [freqStrs, List.mem_cons, List.not_mem_nil, or_false] at hf
  rcases hf with rfl | rfl | rfl | rfl | rfl <;> cases b <;> exact ⟨by decide, by decide⟩

theorem recurring_details (b : Bool) :
    hasSub "True".data ("Recurring: ".data ++ pyBoolStr b) = b := by
  cases b <;> decide

theorem priority_details (p : Int) :
    priorityFromDetails ("Priority: ".data ++ intRepr p) = .ok p := by
  have h2 : (':' : Char) ∉ ' ' :: intRepr p := by
    intro h
    rcases List.mem_cons.mp h with h1 | h1
    · exact absurd h1 (by decide)
    · exact colon_not_mem_intRepr p h1
  have heq : "Priority: ".data ++ intRepr p =
      "Priority".data ++ ':' :: (' ' :: intRepr p) := rfl
  have hsplit : splitOnChar ':' ("Priority: ".data ++ intRepr p) =
      ["Priority".data, ' ' :: intRepr p] := by
    rw [heq]
    exact splitOnChar_pair (by decide) h2
  rw [priorityFromDetails, hsplit]
  show (match intParse (stripStr (' ' :: intRepr p)) with
    | none => Except.error PyError.valueError
    | some z => Except.ok z) = Except.ok p
  rw [stripStr_cons_space, stripStr_no_ws (intRepr_no_ws p), intParse_intRepr]

/-! Each exported row parses back to the record it came from. -/



theorem incomeRow_eq {i : IncomeRec} {t : Bool} (ht : i.is_target = some t) :
    incomeRow i = .ok (incomeRowCells i t) := by
  rw [incomeRow, ht]
  rfl

theorem parseRow_income (i : IncomeRec) (t : Bool) (ht : i.is_target = some t)
    (hf : i.frequency ∈ freqStrs) (ha : i.amount.den ∣ 10 ^ kOf i.amount.den) :
    parseRow stdHeader (incomeRowCells i t) = .ok (.inc { i with id := none }) := by
  have hfd := freq_details hf t
  change Except.bind (floatOf (floatRepr i.amount)) _ = _
  rw [floatOf_repr i.amount ha]
  change Except.bind (freqFromDetails (incomeDetails i.frequency t)) _ = _
  rw [hfd.1]
  change Except.ok
      (RowItem.inc
        { id := none
          amount := i.amount
          description := i.description
          date := i.date
          source := i.source
          frequency := i.frequency
          is_target := some (hasSub "True".data (incomeDetails i.frequency t)) }) = _
  rw [hfd.2, ht]

theorem parseRow_expense (e : ExpenseRec) (b : Bool) (hb : e.is_recurring = some b)
    (hcat : ('/' : Char) ∉ e.category) (hsub : ('/' : Char) ∉ e.subcategory)
    (ha : e.amount.den ∣ 10 ^ kOf e.amount.den) :
    parseRow stdHeader (expenseRow e) = .ok (.exp { e with id := none }) := by
  have hrec := recurring_details (e.is_recurring.getD false)
  change expenseFromParts stdHeader _
      (splitOnChar '/' (e.category ++ '/' :: e.subcategory)) = _
  rw [splitOnChar_pair hcat hsub]
  change Except.bind (floatOf (floatRepr e.amount)) _ = _
  rw [floatOf_repr e.amount ha]
  change Except.ok
      (RowItem.exp
        { id := none
          amount := e.amount
          description := e.description
          date := e.date
          category := e.category
          subcategory := e.subcategory
          is_recurring := some (hasSub "True".data
            ("Recurring: ".data ++ pyBoolStr (e.is_recurring.getD false))) }) = _
  rw [hrec, hb]
  rfl

theorem parseRow_goal (gid : Option Str) (name : Str) (ta cur : Rat) (cat : Str)
    (dl : Option Str) (pr : Int) (cons : Option (List Contribution))
    (hcur : cur.den ∣ 10 ^ kOf cur.den) (htgt : ta.den ∣ 10 ^ kOf ta.den)
    (hdl : dl ≠ some []) :
    parseRow stdHeader (goalRow ⟨gid, name, ta, cur, cat, dl, pr, cons⟩) =
      .ok (.goal ⟨none, name, ta, cur, cat, dl, pr, none⟩) := by
  have hp := priority_details pr
  have hsplitf := splitOnChar_pair (slash_not_mem_floatRepr cur)
    (slash_not_mem_floatRepr ta)
  rcases dl with _ | d
  · change goalFromParts stdHeader _
        (splitOnChar '/' (floatRepr cur ++ '/' :: floatRepr ta)) = _
    rw [hsplitf]
    change Except.bind (floatOf (floatRepr cur)) _ = _
    rw [floatOf_repr cur hcur]
    change Except.bind (floatOf (floatRepr ta)) _ = _
    rw [floatOf_repr ta htgt]
    change Except.bind
        (priorityFromDetails ("Priority: ".data ++ intRepr pr)) _ = _
    rw [hp]
    rfl
  · rcases d with _ | ⟨c, cs⟩
    · exact absurd rfl hdl
    · change goalFromParts stdHeader _
          (splitOnChar '/' (floatRepr cur ++ '/' :: floatRepr ta)) = _
      rw [hsplitf]
      change Except.bind (floatOf (floatRepr cur)) _ = _
      rw [floatOf_repr cur hcur]
      change Except.bind (floatOf (floatRepr ta)) _ = _
      rw [floatOf_repr ta htgt]
      change Except.bind
          (priorityFromDetails ("Priority: ".data ++ intRepr pr)) _ = _
      rw [hp]
      rfl

/-! Glue lemmas about processing row lists. -/

theorem importRows_cons_ok {hdr r : List Str} {rest : List (List Str)}
    {it : RowItem} (hne : r.isEmpty = false) (h : parseRow hdr r = .ok it) :
    importRows hdr (r :: rest) =
      Except.bind (importRows hdr rest) (fun d => .ok (consItem it d)) := by
  rw [importRows, hne, h]
  rfl

theorem importRows_cons_error {hdr r : List Str} {rest : List (List Str)}
    {e : PyError} (hne : r.isEmpty = false) (h : parseRow hdr r = .error e) :
    importRows hdr (r :: rest) = .error e := by
  rw [importRows, hne, h]
  rfl



theorem consItem_catData (it : RowItem) (a b : CSVData) :
    consItem it (catData a b) = catData (consItem it a) b := by
  cases it <;> cases a <;> cases b <;> simp [consItem, catData]

theorem catData_empty (b : CSVData) : catData ⟨[], [], []⟩ b = b := by
  cases b
  simp [catData]

theorem importRows_append {hdr : List Str} {rs1 rs2 : List (List Str)}
    {d1 : CSVData} (h : importRows hdr rs1 = .ok d1) :
    importRows hdr (rs1 ++ rs2) =
      Except.bind (importRows hdr rs2) (fun d2 => .ok (catData d1 d2)) := by
  induction rs1 generalizing d1 with
  | nil =>
    rw [importRows] at h
    injection h with h
    subst h
    rcases himp : importRows hdr rs2 with e | d2
    · rw [List.nil_append, himp]
      rfl
    · rw [List.nil_append, himp]
      rfl
  | cons r rs ih =>
    rw [List.cons_append]
    by_cases hb : r.isEmpty
    · rw [importRows, hb] at h
      rw [importRows, hb]
      exact ih h
    · have hb' : r.isEmpty = false := by simpa using hb
      rw [importRows, hb'] at h
      simp only [Bool.false_eq_true, if_false] at h
      rcases hit : parseRow hdr r with e | it
      · rw [hit] at h
        simp at h
      · rw [hit] at h
        simp only [pbind_ok] at h
        rcases hd : importRows hdr rs with e | d
        · rw [hd] at h
          simp at h
        · rw [hd] at h
          simp only [pbind_ok] at h
          injection h with h
          subst h
          rw [importRows_cons_ok hb' hit, ih hd]
          rcases himp2 : importRows hdr rs2 with e | d2
          · rfl
          · exact congrArg Except.ok (consItem_catData it d d2)

theorem importRows_incomeRows (is : List IncomeRec)
    (h : ∀ i ∈ is, i.is_target.isSome ∧ i.frequency ∈ freqStrs ∧
      i.amount.den ∣ 10 ^ kOf i.amount.den) :
    ∃ irows, incomeRowsM is = .ok irows ∧
      importRows stdHeader irows =
        .ok ⟨is.map (fun i => { i with id := none }), [], []⟩ := by
  induction is with
  | nil => exact ⟨[], rfl, rfl⟩
  | cons i rest ih =>
    obtain ⟨hts, hf, ha⟩ := h i (List.mem_cons_self i rest)
    obtain ⟨t, ht⟩ := Option.isSome_iff_exists.mp hts
    obtain ⟨irows, h1, h2⟩ := ih (fun x hx => h x (List.mem_cons_of_mem i hx))
    refine ⟨incomeRowCells i t :: irows, ?_, ?_⟩
    · rw [incomeRowsM, incomeRow_eq ht]
      simp only [pbind_ok, h1]
    · rw [importRows_cons_ok
        (show (incomeRowCells i t).isEmpty = false from rfl)
        (parseRow_income i t ht hf ha), h2]
      rfl


theorem importRows_expenseRows (es : List ExpenseRec)
    (h : ∀ e ∈ es, e.is_recurring.isSome ∧ ('/' : Char) ∉ e.category ∧
      ('/' : Char) ∉ e.subcategory ∧ e.amount.den ∣ 10 ^ kOf e.amount.den) :
    importRows stdHeader (es.map expenseRow) =
      .ok ⟨[], es.map (fun e => { e with id := none }), []⟩ := by
  induction es with
  | nil => rfl
  | cons e rest ih =>
    obtain ⟨hrs, hcat, hsub, ha⟩ := h e (List.mem_cons_self e rest)
    obtain ⟨b, hb⟩ := Option.isSome_iff_exists.mp hrs
    have ih2 := ih (fun x hx => h x (List.mem_cons_of_mem e hx))
    rw [List.map_cons,
      importRows_cons_ok (show (expenseRow e).isEmpty = false from rfl)
        (parseRow_expense e b hb hcat hsub ha), ih2]
    rfl

theorem importRows_goalRows (gs : List GoalRec)
    (h : ∀ g ∈ gs, g.current_amount.den ∣ 10 ^ kOf g.current_amount.den ∧
      g.target_amount.den ∣ 10 ^ kOf g.target_amount.den ∧ g.deadline ≠ some []) :
    importRows stdHeader (gs.map goalRow) =
      .ok ⟨[], [], gs.map (fun g => { g with id := none, contributions := none })⟩ := by
  induction gs with
  | nil => rfl
  | cons g rest ih =>
    obtain ⟨hcur, htgt, hdl⟩ := h g (List.mem_cons_self g rest)
    have ih2 := ih (fun x hx => h x (List.mem_cons_of_mem g hx))
    obtain ⟨gid, name, ta, cur, cat, dl, pr, cons⟩ := g
    rw [List.map_cons,
      importRows_cons_ok
        (show (goalRow ⟨gid, name, ta, cur, cat, dl, pr, cons⟩).isEmpty = false from rfl)
        (parseRow_goal gid name ta cur cat dl pr cons hcur htgt hdl),
      ih2]
    rfl

end Penny

namespace Penny

@[simp] theorem ebind_ok {α β : Type} (a : α) (f : α → Except PyError β) :
    Except.bind (Except.ok a) f = f a := rfl

@[simp] theorem ebind_error {α β : Type} (e : PyError) (f : α → Except PyError β) :
    Except.bind (Except.error e : Except PyError α) f = Except.error e := rfl



/-- C1 (amended): for every well-formed ledger, CSV export followed by
CSV import preserves every income's amount, description, date, source,
frequency and is_target, every expense's amount, description, date,
category, subcategory and is_recurring, and every goal's name,
target_amount, current_amount, category, deadline and priority; after
re-import the id key is absent from every record (not regenerated), the
contributions key is absent from every goal (not an empty list), and the
version key is gone. -/
theorem tabular_roundtrip (l : Ledger) (h : csvExportable l) :
    csvRoundTrip l = .ok
      { incomes := l.incomes.map (fun i => { i with id := none })
        expenses := l.expenses.map (fun e => { e with id := none })
        savings_goals := l.savings_goals.map
          (fun g => { g with id := none, contributions := none })
        version := none } := by
  obtain ⟨hi, he, hg⟩ := h
  obtain ⟨irows, h1, h2⟩ := importRows_incomeRows l.incomes hi
  have h3 := importRows_expenseRows l.expenses he
  have h4 := importRows_goalRows l.savings_goals hg
  have hexp : export_to_csv l = .ok (stdHeader ::
      (irows ++ (l.expenses.map expenseRow ++ l.savings_goals.map goalRow))) := by
    rw [export_to_csv, h1]
    simp only [pbind_ok]
    rw [List.append_assoc]
  rw [csvRoundTrip, hexp]
  simp only [pbind_ok]
  rw [importCSVFile, importRows_append h2, importRows_append h3, h4]
  simp only [ebind_ok, pbind_ok]
  simp [csvDataLedger, catData]

end Penny

namespace Penny

/-! Lemmas about the contribute scan. -/

theorem contribGoals_none (gid : Str) (amt : Rat) (today : Str)
    (gs : List GoalRec) (h : ∀ g ∈ gs, ∃ i, g.id = some i ∧ i ≠ gid) :
    contribGoals gid amt today gs = .ok (false, gs) := by
  induction gs with
  | nil => rfl
  | cons g rest ih =>
    obtain ⟨i, hid, hne⟩ := h g (List.mem_cons_self g rest)
    rw [contribGoals, hid]
    change ite (i = gid) _ _ = _
    rw [if_neg hne, ih (fun x hx => h x (List.mem_cons_of_mem g hx))]
    rfl

theorem contribGoals_found (gid : Str) (amt : Rat) (today : Str)
    (pre : List GoalRec) (g : GoalRec) (post : List GoalRec)
    (cs : List Contribution)
    (hpre : ∀ p ∈ pre, ∃ i, p.id = some i ∧ i ≠ gid)
    (hid : g.id = some gid) (hcs : g.contributions = some cs) :
    contribGoals gid amt today (pre ++ g :: post) = .ok (true,
      pre ++ ({ g with
        current_amount := g.current_amount + amt
        contributions := some (cs ++ [⟨amt, today⟩]) }) :: post) := by
  induction pre with
  | nil =>
    rw [List.nil_append, contribGoals, hid]
    change ite (gid = gid) _ _ = _
    rw [if_pos rfl, hcs]
    rfl
  | cons p pre' ih =>
    obtain ⟨i, hpid, hne⟩ := hpre p (List.mem_cons_self p pre')
    rw [List.cons_append, contribGoals, hpid]
    change ite (i = gid) _ _ = _
    rw [if_neg hne, ih (fun x hx => hpre x (List.mem_cons_of_mem p hx))]
    rfl

/-- C2: on a ledger whose stored goals carry their id and contributions
keys (the data-model shape), contribute against an id that matches no
goal returns false and leaves the ledger unchanged, while contribute
against the id of a stored goal returns true, adds exactly amount to
that goal's current_amount, appends exactly one amount-and-date entry to
its contributions, and changes nothing else. -/
theorem contribute_spec (l : Ledger) (gid : Str) (amt : Rat) (today : Str) :
    ((∀ g ∈ l.savings_goals, ∃ i, g.id = some i ∧ i ≠ gid) →
      contribute_to_goal l gid amt today = .ok (false, l)) ∧
    (∀ pre g post cs, l.savings_goals = pre ++ g :: post →
      (∀ p ∈ pre, ∃ i, p.id = some i ∧ i ≠ gid) →
      g.id = some gid → g.contributions = some cs →
      contribute_to_goal l gid amt today = .ok (true,
        { l with savings_goals := pre ++
          ({ g with
            current_amount := g.current_amount + amt
            contributions := some (cs ++ [⟨amt, today⟩]) }) :: post })) := by
  constructor
  · intro h
    rw [contribute_to_goal, contribGoals_none gid amt today l.savings_goals h]
    rfl
  · intro pre g post cs hsplit hpre hid hcs
    rw [contribute_to_goal, hsplit,
      contribGoals_found gid amt today pre g post cs hpre hid hcs]
    rfl

/-! Lemmas about the summary computation. -/

theorem sumNonTarget_eq (is : List IncomeRec)
    (h : ∀ i ∈ is, i.is_target.isSome) :
    sumNonTarget is = .ok (((is.filter
      (fun i => i.is_target == some false)).map (fun i => i.amount)).sum) := by
  induction is with
  | nil => rfl
  | cons i rest ih =>
    obtain ⟨t, ht⟩ := Option.isSome_iff_exists.mp (h i (List.mem_cons_self i rest))
    rw [sumNonTarget, ht, ih (fun x hx => h x (List.mem_cons_of_mem i hx))]
    cases t
    · simp [List.filter_cons, ht]
    · simp [List.filter_cons, ht]

theorem incomeTargetsList_ok (is : List IncomeRec)
    (h : ∀ i ∈ is, i.is_target.isSome) :
    ∃ ts, incomeTargetsList is = .ok ts := by
  induction is with
  | nil => exact ⟨[], rfl⟩
  | cons i rest ih =>
    obtain ⟨t, ht⟩ := Option.isSome_iff_exists.mp (h i (List.mem_cons_self i rest))
    obtain ⟨ts, hts⟩ := ih (fun x hx => h x (List.mem_cons_of_mem i hx))
    refine ⟨if t then i :: ts else ts, ?_⟩
    rw [incomeTargetsList, ht, hts]
    rfl

theorem sumNonTarget_error (is : List IncomeRec)
    (h : ∃ i ∈ is, i.is_target = none) :
    sumNonTarget is = .error .keyError := by
  induction is with
  | nil => simp at h
  | cons i rest ih =>
    rcases h with ⟨j, hj, hnone⟩
    rcases List.mem_cons.mp hj with rfl | hmem
    · rw [sumNonTarget, hnone]
    · rcases hi : i.is_target with _ | t
      · rw [sumNonTarget, hi]
      · rw [sumNonTarget, hi, ih ⟨j, hmem, hnone⟩]
        rfl

/-- C3: when every income record carries its is_target key (the
data-model shape), get_summary returns a summary whose total_income sums
exactly the non-target income amounts, whose total_expenses sums every
expense amount, whose net_balance is their difference, and whose
total_savings sums current_amount over all goals; the embedded
get_summary is a pure function of the ledger, so it mutates nothing. -/
theorem summary_totals (l : Ledger)
    (h : ∀ i ∈ l.incomes, i.is_target.isSome) :
    ∃ s, get_summary l = .ok s ∧
      s.total_income = ((l.incomes.filter
        (fun i => i.is_target == some false)).map (fun i => i.amount)).sum ∧
      s.total_expenses = (l.expenses.map (fun e => e.amount)).sum ∧
      s.net_balance = s.total_income - s.total_expenses ∧
      s.total_savings = (l.savings_goals.map (fun g => g.current_amount)).sum := by
  obtain ⟨ts, hts⟩ := incomeTargetsList_ok l.incomes h
  rw [get_summary, sumNonTarget_eq l.incomes h]
  simp only [pbind_ok]
  rw [hts]
  simp only [pbind_ok]
  exact ⟨_, rfl, rfl, rfl, rfl, rfl⟩

/-- C10: get_summary is asymmetric about missing boolean keys.  An
income record without the is_target key makes it fail with KeyError; an
expense record without the is_recurring key is tolerated, the summary is
produced, and such an expense is treated as non-recurring (excluded from
expense_targets via the dict.get default). -/
theorem summary_missing_flags (l : Ledger) :
    ((∃ i ∈ l.incomes, i.is_target = none) →
      get_summary l = .error .keyError) ∧
    ((∀ i ∈ l.incomes, i.is_target.isSome) →
      ∃ s, get_summary l = .ok s ∧
        s.expense_targets = l.expenses.filter
          (fun e => e.is_recurring.getD false)) := by
  constructor
  · intro h
    rw [get_summary, sumNonTarget_error l.incomes h]
    rfl
  · intro h
    obtain ⟨ts, hts⟩ := incomeTargetsList_ok l.incomes h
    obtain ⟨S, hS⟩ : ∃ S, sumNonTarget l.incomes = .ok S := by
      rw [sumNonTarget_eq l.incomes h]
      exact ⟨_, rfl⟩
    rw [get_summary, hS]
    simp only [pbind_ok]
    rw [hts]
    simp only [pbind_ok]
    exact ⟨_, rfl, rfl⟩

/-- C6: a structured import whose decoded document lacks any of the
three required top-level keys fails with the ValueError carrying the
invalid-data message (the FormatError of the design), and every failed
import, structured or tabular, leaves the prior in-memory ledger
intact: the state is replaced only after validation succeeds. -/
theorem structured_import_validation (st : Ledger) :
    (∀ fs : List (Str × JVal),
      (findVal fs "incomes".data = none ∨ findVal fs "expenses".data = none ∨
        findVal fs "savings_goals".data = none) →
      import_data_json st (.obj fs) = (st, .error .valueError)) ∧
    (∀ j e, (import_data_json st j).2 = .error e →
      (import_data_json st j).1 = st) ∧
    (∀ rows e, (import_data_csv st rows).2 = .error e →
      (import_data_csv st rows).1 = st) := by
  refine ⟨?_, ?_, ?_⟩
  · intro fs hmiss
    have hdec : decodeLedger (.obj fs) = .error .valueError := by
      rw [decodeLedger]
      rcases hmiss with h | h | h <;> rw [h] <;> simp
    rw [import_data_json, hdec]
  · intro j e h
    rcases hd : decodeLedger j with e' | d
    · simp only [import_data_json, hd]
    · rw [import_data_json, hd] at h
      simp at h
  · intro rows e h
    rcases hd : importCSVFile rows with e' | d
    · simp only [import_data_csv, hd]
    · rw [import_data_csv, hd] at h
      simp at h

end Penny

namespace Penny

/-! Structured-codec round trip. -/

theorem decodeArr_map {α : Type} (f : JVal → Except PyError α) (g : α → JVal)
    (h : ∀ x, f (g x) = .ok x) :
    ∀ xs : List α, decodeArr f (xs.map g) = .ok xs := by
  intro xs
  induction xs with
  | nil => rfl
  | cons x rest ih =>
    rw [List.map_cons, decodeArr, h x]
    simp only [pbind_ok]
    rw [ih]
    rfl

theorem decodeContribution_toJson (c : Contribution) :
    decodeContribution (contribToJson c) = .ok c := by
  cases c
  rfl

theorem decodeIncome_toJson (i : IncomeRec) :
    decodeIncome (incomeToJson i) = .ok i := by
  obtain ⟨id, amount, description, date, source, frequency, is_target⟩ := i
  cases id <;> cases is_target <;> rfl

theorem decodeExpense_toJson (e : ExpenseRec) :
    decodeExpense (expenseToJson e) = .ok e := by
  obtain ⟨id, amount, description, date, category, subcategory, is_recurring⟩ := e
  cases id <;> cases is_recurring <;> rfl

theorem decodeGoal_toJson (g : GoalRec) :
    decodeGoal (goalToJson g) = .ok g := by
  obtain ⟨id, name, ta, cur, cat, dl, pr, cons⟩ := g
  rcases cons with _ | cs
  · cases id <;> cases dl <;> rfl
  · have harr : decodeArr decodeContribution (cs.map contribToJson) = .ok cs :=
      decodeArr_map _ _ decodeContribution_toJson cs
    cases id <;> cases dl <;>
      (change Except.bind (Except.bind
          (decodeArr decodeContribution (cs.map contribToJson)) _) _ = _
       rw [harr]
       rfl)

/-- C7: decoding the structured encoding of any ledger gives back a
ledger equal to the original, for every combination of populated and
empty collections and for every pattern of optional keys. -/
theorem structured_roundtrip (l : Ledger) :
    decodeLedger (ledgerToJson l) = .ok l := by
  obtain ⟨is, es, gs, v⟩ := l
  have hi := decodeArr_map _ _ decodeIncome_toJson is
  have he := decodeArr_map _ _ decodeExpense_toJson es
  have hg := decodeArr_map _ _ decodeGoal_toJson gs
  cases v <;>
    (change Except.bind (decodeArr decodeIncome (is.map incomeToJson)) _ = _
     rw [hi]
     change Except.bind (decodeArr decodeExpense (es.map expenseToJson)) _ = _
     rw [he]
     change Except.bind (decodeArr decodeGoal (gs.map goalToJson)) _ = _
     rw [hg]
     rfl)

end Penny

namespace Penny

/-! Failure policy of the tabular import. -/

theorem parseRow_skip (t : Str) (cells : List Str)
    (h : t ∉ [("Income".data : Str), "Expense".data, "Savings Goal".data]) :
    parseRow stdHeader (t :: cells) = .ok .skip := by
  obtain ⟨h1, h2, h3⟩ :
      t ≠ "Income".data ∧ t ≠ "Expense".data ∧ t ≠ "Savings Goal".data := by
    simpa [not_or] using h
  have hty : rowGet stdHeader (t :: cells) "Type".data = .ok (some t) := by
    have h0 : rowGet stdHeader (t :: cells) "Type".data =
        .ok ((t :: cells)[0]?) := rfl
    rw [h0]
    simp
  rw [parseRow, hty]
  simp only [pbind_ok]
  rw [if_neg (by simpa using h1), if_neg (by simpa using h2),
    if_neg (by simpa using h3)]

theorem importRows_error_of_bad (rows : List (List Str))
    (h : ∃ r ∈ rows, r.isEmpty = false ∧ ∃ e, parseRow stdHeader r = .error e) :
    ∃ e2, importRows stdHeader rows = .error e2 := by
  induction rows with
  | nil => simp at h
  | cons r rest ih =>
    rcases h with ⟨r', hr', hne', e', he'⟩
    rcases List.mem_cons.mp hr' with rfl | hmem
    · exact ⟨e', importRows_cons_error hne' he'⟩
    · by_cases hb : r.isEmpty
      · obtain ⟨e2, h2⟩ := ih ⟨r', hmem, hne', e', he'⟩
        refine ⟨e2, ?_⟩
        rw [importRows, hb]
        exact h2
      · have hb' : r.isEmpty = false := by simpa using hb
        rcases hp : parseRow stdHeader r with e3 | it
        · exact ⟨e3, importRows_cons_error hb' hp⟩
        · obtain ⟨e2, h2⟩ := ih ⟨r', hmem, hne', e', he'⟩
          refine ⟨e2, ?_⟩
          rw [importRows_cons_ok hb' hp, h2]
          rfl

theorem importRows_skip_mid (t : Str) (cells : List Str)
    (h : t ∉ [("Income".data : Str), "Expense".data, "Savings Goal".data]) :
    ∀ rows1 rows2 : List (List Str),
      importRows stdHeader (rows1 ++ (t :: cells) :: rows2) =
        importRows stdHeader (rows1 ++ rows2) := by
  intro rows1
  induction rows1 with
  | nil =>
    intro rows2
    rw [List.nil_append, List.nil_append,
      importRows_cons_ok (show (t :: cells).isEmpty = false from rfl)
        (parseRow_skip t cells h)]
    rcases himp : importRows stdHeader rows2 with e | d <;> rfl
  | cons r rows1' ih =>
    intro rows2
    rw [List.cons_append, List.cons_append]
    by_cases hb : r.isEmpty
    · rw [importRows, hb, importRows, hb]
      exact ih rows2
    · have hb' : r.isEmpty = false := by simpa using hb
      rcases hp : parseRow stdHeader r with e3 | it
      · rw [importRows_cons_error hb' hp, importRows_cons_error hb' hp]
      · rw [importRows_cons_ok hb' hp, importRows_cons_ok hb' hp, ih rows2]

/-- C5 (amended): a malformed row of a recognized Type (too few cells,
non-numeric amount, Category or Amount cell without exactly one slash,
malformed Details) aborts the whole tabular import with an error and a
failed import leaves the in-memory ledger untouched, so no row of such a
file is imported; however a row whose Type cell is not one of the three
recognized values is silently skipped rather than rejected, and rows
with extra cells beyond the sixth are accepted with the extras ignored. -/
theorem tabular_import_failure :
    (∀ rows : List (List Str),
      (∃ r ∈ rows, r.isEmpty = false ∧ ∃ e, parseRow stdHeader r = .error e) →
      ∃ e2, importCSVFile (stdHeader :: rows) = .error e2) ∧
    (∀ (st : Ledger) (rows : List (List Str)) (e : PyError),
      importCSVFile rows = .error e → import_data_csv st rows = (st, .error e)) ∧
    (∀ (rows1 rows2 : List (List Str)) (t : Str) (cells : List Str),
      t ∉ [("Income".data : Str), "Expense".data, "Savings Goal".data] →
      importCSVFile (stdHeader :: (rows1 ++ (t :: cells) :: rows2)) =
        importCSVFile (stdHeader :: (rows1 ++ rows2))) := by
  refine ⟨?_, ?_, ?_⟩
  · intro rows h
    exact importRows_error_of_bad rows h
  · intro st rows e h
    rw [import_data_csv, h]
  · intro rows1 rows2 t cells h
    exact importRows_skip_mid t cells h rows1 rows2

unseal Rat.add Rat.mul Rat.inv Rat.sub in
/-- C9 (amended): decoding an Expense row splits the Category cell on
every slash and the tuple unpacking succeeds exactly when the split has
two parts, that is when the cell contains exactly one slash; the part
before the slash becomes category and the part after becomes
subcategory.  A cell with no slash or with two or more slashes makes the
row decode raise ValueError. -/
theorem expense_category_split (cell : Str) :
    (∀ c s, cell = c ++ '/' :: s → ('/' : Char) ∉ c → ('/' : Char) ∉ s →
      parseRow stdHeader ["Expense".data, "10.0".data, "d".data,
        "2026-01-01".data, cell, "Recurring: False".data] = .ok (.exp
          { id := none, amount := 10, description := "d".data,
            date := "2026-01-01".data, category := c, subcategory := s,
            is_recurring := some false })) ∧
    ((splitOnChar '/' cell).length ≠ 2 →
      parseRow stdHeader ["Expense".data, "10.0".data, "d".data,
        "2026-01-01".data, cell, "Recurring: False".data] =
          .error .valueError) ∧
    (('/' : Char) ∉ cell →
      parseRow stdHeader ["Expense".data, "10.0".data, "d".data,
        "2026-01-01".data, cell, "Recurring: False".data] =
          .error .valueError) := by
  have hred : parseRow stdHeader ["Expense".data, "10.0".data, "d".data,
      "2026-01-01".data, cell, "Recurring: False".data] =
      expenseFromParts stdHeader ["Expense".data, "10.0".data, "d".data,
        "2026-01-01".data, cell, "Recurring: False".data]
        (splitOnChar '/' cell) := rfl
  refine ⟨?_, ?_, ?_⟩
  · rintro c s rfl hc hs
    rw [hred, splitOnChar_pair hc hs]
    rfl
  · intro hlen
    rw [hred]
    rcases hsp : splitOnChar '/' cell with _ | ⟨p1, _ | ⟨p2, rest⟩⟩
    · rfl
    · rfl
    · rcases rest with _ | ⟨p3, rest'⟩
      · exact absurd (by simp [hsp]) hlen
      · rfl
  · intro hnc
    rw [hred, splitOnChar_not_mem hnc]
    rfl

end Penny

namespace Penny

theorem incomeRowsM_eq_map (is : List IncomeRec)
    (h : ∀ i ∈ is, i.is_target.isSome) :
    incomeRowsM is =
      .ok (is.map (fun i => incomeRowCells i (i.is_target.getD false))) := by
  induction is with
  | nil => rfl
  | cons i rest ih =>
    obtain ⟨t, ht⟩ := Option.isSome_iff_exists.mp (h i (List.mem_cons_self i rest))
    rw [incomeRowsM, incomeRow_eq ht,
      ih (fun x hx => h x (List.mem_cons_of_mem i hx))]
    simp only [pbind_ok, List.map_cons]
    rw [ht]
    rfl

/-- C4: the tabular export writes the canonical header and then exactly
one six-cell row per record: an Income row with literal Type Income, the
printed amount, description, date, the source in the Category column and
a Frequency-and-Target Details cell; an Expense row with the
slash-joined category and subcategory in the Category column and a
Recurring Details cell; a Savings Goal row with literal Type Savings
Goal, the current-slash-target composite Amount cell, the name in the
Description column, the deadline or the empty cell in the Date column,
and a Priority Details cell. -/
theorem tabular_encoding_shapes (l : Ledger)
    (h : ∀ i ∈ l.incomes, i.is_target.isSome) :
    ∃ rows, export_to_csv l = .ok rows ∧
      rows[0]? = some ["Type".data, "Amount".data, "Description".data,
        "Date".data, "Category".data, "Details".data] ∧
      (∀ k i t, l.incomes[k]? = some i → i.is_target = some t →
        rows[k + 1]? = some ["Income".data, floatRepr i.amount, i.description,
          i.date, i.source,
          "Frequency: ".data ++ i.frequency ++ ", Target: ".data ++ pyBoolStr t]) ∧
      (∀ k e, l.expenses[k]? = some e →
        rows[l.incomes.length + 1 + k]? = some ["Expense".data,
          floatRepr e.amount, e.description, e.date,
          e.category ++ '/' :: e.subcategory,
          "Recurring: ".data ++ pyBoolStr (e.is_recurring.getD false)]) ∧
      (∀ k g, l.savings_goals[k]? = some g →
        rows[l.incomes.length + l.expenses.length + 1 + k]? =
          some ["Savings Goal".data,
            floatRepr g.current_amount ++ '/' :: floatRepr g.target_amount,
            g.name, g.deadline.getD [], g.category,
            "Priority: ".data ++ intRepr g.priority]) := by
  have hm := incomeRowsM_eq_map l.incomes h
  have hlim : (l.incomes.map
      (fun i => incomeRowCells i (i.is_target.getD false))).length =
      l.incomes.length := List.length_map _ _
  have hlem : (l.expenses.map expenseRow).length = l.expenses.length :=
    List.length_map _ _
  refine ⟨stdHeader :: (l.incomes.map
      (fun i => incomeRowCells i (i.is_target.getD false)) ++
      l.expenses.map expenseRow ++ l.savings_goals.map goalRow),
    ?_, by simp [stdHeader], ?_, ?_, ?_⟩
  · rw [export_to_csv, hm]
    simp only [pbind_ok]
  · intro k i t hk ht
    obtain ⟨hlt, _⟩ := List.getElem?_eq_some_iff.mp hk
    rw [List.getElem?_cons_succ,
      List.getElem?_append_left (by rw [List.length_append, hlim, hlem]; omega),
      List.getElem?_append_left (by rw [hlim]; omega),
      List.getElem?_map, hk]
    simp only [Option.map_some']
    rw [ht]
    rfl
  · intro k e hk
    obtain ⟨hlt, _⟩ := List.getElem?_eq_some_iff.mp hk
    have hidx : l.incomes.length + 1 + k = (l.incomes.length + k) + 1 := by omega
    rw [hidx, List.getElem?_cons_succ,
      List.getElem?_append_left (by rw [List.length_append, hlim, hlem]; omega),
      List.getElem?_append_right (by rw [hlim]; omega)]
    have hsub : l.incomes.length + k -
        (l.incomes.map
          (fun i => incomeRowCells i (i.is_target.getD false))).length = k := by
      rw [hlim]
      omega
    rw [hsub, List.getElem?_map, hk]
    rfl
  · intro k g hk
    obtain ⟨hlt, _⟩ := List.getElem?_eq_some_iff.mp hk
    have hidx : l.incomes.length + l.expenses.length + 1 + k =
        (l.incomes.length + l.expenses.length + k) + 1 := by omega
    rw [hidx, List.getElem?_cons_succ,
      List.getElem?_append_right (by rw [List.length_append, hlim, hlem]; omega)]
    have hsub : l.incomes.length + l.expenses.length + k -
        (l.incomes.map (fun i => incomeRowCells i (i.is_target.getD false)) ++
          l.expenses.map expenseRow).length = k := by
      rw [List.length_append, hlim, hlem]
      omega
    rw [hsub, List.getElem?_map, hk]
    rfl

end Penny

namespace Penny

/-- C8: constructing an Income or Expense with non-positive amount, or a
SavingsGoal with non-positive target or priority outside one to five,
raises ValueError and the driver flow leaves every collection of the
ledger unchanged; for valid inputs construction succeeds and the stored
fields equal the inputs (with the documented synthesized default when
the description is blank), a new goal starting at current_amount zero
with an empty contributions list. -/
theorem construction_validation (l : Ledger) (amount target_amount : Rat)
    (source subcategory description name today : Str)
    (frequency : Frequency) (ecat : ExpenseCategory) (scat : SavingsCategory)
    (deadline : Option Str) (priority : Int) (is_target is_recurring : Bool) :
    (amount ≤ 0 →
      mkIncome amount source frequency description is_target today =
        .error .valueError ∧
      tryAddIncome l amount source frequency description is_target today =
        (l, .error .valueError) ∧
      mkExpense amount ecat subcategory description is_recurring today =
        .error .valueError ∧
      tryAddExpense l amount ecat subcategory description is_recurring today =
        (l, .error .valueError)) ∧
    (0 < amount →
      (∃ r, mkIncome amount source frequency description is_target today = .ok r ∧
        r.amount = amount ∧ r.source = source ∧ r.frequency = frequency.toStr ∧
        r.is_target = some is_target ∧ r.date = today ∧
        (description ≠ [] → r.description = description)) ∧
      (∃ r, mkExpense amount ecat subcategory description is_recurring today = .ok r ∧
        r.amount = amount ∧ r.category = ecat.toStr ∧ r.subcategory = subcategory ∧
        r.is_recurring = some is_recurring ∧ r.date = today ∧
        (description ≠ [] → r.description = description))) ∧
    ((target_amount ≤ 0 ∨ priority < 1 ∨ 5 < priority) →
      mkGoal name target_amount scat deadline priority = .error .valueError ∧
      tryAddGoal l name target_amount scat deadline priority =
        (l, .error .valueError)) ∧
    (0 < target_amount → 1 ≤ priority → priority ≤ 5 →
      ∃ g, mkGoal name target_amount scat deadline priority = .ok g ∧
        g.name = name ∧ g.target_amount = target_amount ∧ g.current_amount = 0 ∧
        g.category = scat.toStr ∧ g.deadline = deadline ∧ g.priority = priority ∧
        g.contributions = some []) := by
  refine ⟨?_, ?_, ?_, ?_⟩
  · intro h
    have hmi : mkIncome amount source frequency description is_target today =
        .error .valueError := by
      rw [mkIncome, if_pos h]
    have hme : mkExpense amount ecat subcategory description is_recurring today =
        .error .valueError := by
      rw [mkExpense, if_pos h]
    refine ⟨hmi, ?_, hme, ?_⟩
    · rw [tryAddIncome, hmi]
    · rw [tryAddExpense, hme]
  · intro h
    have hne : ¬ amount ≤ 0 := not_le.mpr h
    constructor
    · refine ⟨_, by rw [mkIncome, if_neg hne], rfl, rfl, rfl, rfl, rfl, ?_⟩
      intro hd
      rcases hdesc : description with _ | ⟨c, cs⟩
      · exact absurd hdesc hd
      · rfl
    · refine ⟨_, by rw [mkExpense, if_neg hne], rfl, rfl, rfl, rfl, rfl, ?_⟩
      intro hd
      rcases hdesc : description with _ | ⟨c, cs⟩
      · exact absurd hdesc hd
      · rfl
  · intro h
    have hmg : mkGoal name target_amount scat deadline priority =
        .error .valueError := by
      by_cases ht : target_amount ≤ 0
      · rw [mkGoal, if_pos ht]
      · rcases h with h | h | h
        · exact absurd h ht
        · rw [mkGoal, if_neg ht, if_pos (Or.inl h)]
        · rw [mkGoal, if_neg ht, if_pos (Or.inr h)]
    refine ⟨hmg, ?_⟩
    rw [tryAddGoal, hmg]
  · intro h1 h2 h3
    have hne : ¬ target_amount ≤ 0 := not_le.mpr h1
    have hne2 : ¬ (priority < 1 ∨ 5 < priority) := by omega
    exact ⟨_, by rw [mkGoal, if_neg hne, if_neg hne2], rfl, rfl, rfl, rfl, rfl,
      rfl, rfl⟩

end Penny

namespace Penny

unseal Rat.add Rat.mul Rat.inv Rat.sub in
/-- C1 counterexample: the tabular round trip does not hold as claimed.
A ledger whose only expense has the subcategory a/b fails to re-import
at all (nothing is preserved), and re-importing an exported goal yields
a goal dictionary with no contributions key and no id key, rather than
an empty contributions sequence and a regenerated id. -/
theorem claim_C1_counterexample :
    csvRoundTrip cexExpenseLedger = .error .valueError ∧
    csvRoundTrip cexGoalLedger = .ok
      { incomes := []
        expenses := []
        savings_goals := [{ id := none
                            name := "Laptop".data
                            target_amount := 1000
                            current_amount := 350
                            category := "electronics".data
                            deadline := none
                            priority := 2
                            contributions := none }]
        version := none } := by
  constructor
  · decide
  · decide

/-- C1 witness: the amended round-trip theorem applied to a concrete
one-of-each ledger. -/
theorem claim_C1_witness :
    csvExportable sampleLedger ∧ csvRoundTrip sampleLedger = .ok
      { incomes := sampleLedger.incomes.map (fun i => { i with id := none })
        expenses := sampleLedger.expenses.map (fun e => { e with id := none })
        savings_goals := sampleLedger.savings_goals.map
          (fun g => { g with id := none, contributions := none })
        version := none } :=
  ⟨by decide, tabular_roundtrip sampleLedger (by decide)⟩

/-- C2 witness: contribute on the sample ledger, once with an unknown id
and once with the stored goal's id. -/
theorem claim_C2_witness :
    contribute_to_goal sampleLedger "zz".data 50 "2026-02-01".data =
      .ok (false, sampleLedger) ∧
    contribute_to_goal sampleLedger "g1".data 50 "2026-02-01".data =
      .ok (true, { sampleLedger with savings_goals := [] ++
        ({ sampleGoal with
          current_amount := sampleGoal.current_amount + 50
          contributions := some ([⟨250, "2026-01-04".data⟩] ++
            [⟨50, "2026-02-01".data⟩]) }) :: [] }) := by
  constructor
  · refine (contribute_spec sampleLedger "zz".data 50 "2026-02-01".data).1 ?_
    intro g hg
    rcases List.mem_singleton.mp hg with rfl
    exact ⟨"g1".data, rfl, by decide⟩
  · exact (contribute_spec sampleLedger "g1".data 50 "2026-02-01".data).2
      [] sampleGoal [] [⟨250, "2026-01-04".data⟩] rfl
      (fun p hp => absurd hp (List.not_mem_nil p)) rfl rfl

/-- C3 witness: the summary totals on the sample ledger. -/
theorem claim_C3_witness :
    (∀ i ∈ sampleLedger.incomes, i.is_target.isSome) ∧
    ∃ s, get_summary sampleLedger = .ok s ∧
      s.total_income = ((sampleLedger.incomes.filter
        (fun i => i.is_target == some false)).map (fun i => i.amount)).sum ∧
      s.total_expenses = (sampleLedger.expenses.map (fun e => e.amount)).sum ∧
      s.net_balance = s.total_income - s.total_expenses ∧
      s.total_savings = (sampleLedger.savings_goals.map
        (fun g => g.current_amount)).sum :=
  ⟨by decide, summary_totals sampleLedger (by decide)⟩

/-- C4 witness: the exported row shapes on the sample ledger. -/
theorem claim_C4_witness :
    (∀ i ∈ sampleLedger.incomes, i.is_target.isSome) ∧
    ∃ rows, export_to_csv sampleLedger = .ok rows ∧
      rows[0]? = some ["Type".data, "Amount".data, "Description".data,
        "Date".data, "Category".data, "Details".data] ∧
      (∀ k i t, sampleLedger.incomes[k]? = some i → i.is_target = some t →
        rows[k + 1]? = some ["Income".data, floatRepr i.amount, i.description,
          i.date, i.source,
          "Frequency: ".data ++ i.frequency ++ ", Target: ".data ++ pyBoolStr t]) ∧
      (∀ k e, sampleLedger.expenses[k]? = some e →
        rows[sampleLedger.incomes.length + 1 + k]? = some ["Expense".data,
          floatRepr e.amount, e.description, e.date,
          e.category ++ '/' :: e.subcategory,
          "Recurring: ".data ++ pyBoolStr (e.is_recurring.getD false)]) ∧
      (∀ k g, sampleLedger.savings_goals[k]? = some g →
        rows[sampleLedger.incomes.length + sampleLedger.expenses.length + 1 + k]? =
          some ["Savings Goal".data,
            floatRepr g.current_amount ++ '/' :: floatRepr g.target_amount,
            g.name, g.deadline.getD [], g.category,
            "Priority: ".data ++ intRepr g.priority]) :=
  ⟨by decide, tabular_encoding_shapes sampleLedger (by decide)⟩



/-- C5 counterexample: an input whose only row has the unrecognized Type
value Widget imports successfully with empty collections; the claimed
whole-import FormatError does not happen. -/
theorem claim_C5_counterexample :
    importCSVFile [stdHeader, ["Widget".data, [], [], [], [], []]] =
      .ok ⟨[], [], []⟩ := by decide

/-- C5 witness: a malformed recognized-Type row aborts the import, a
failed import leaves the ledger unchanged, and an unrecognized-Type row
is skipped. -/
theorem claim_C5_witness :
    (∃ e2, importCSVFile (stdHeader :: [badExpenseRow]) = .error e2) ∧
    import_data_csv sampleLedger [stdHeader, badExpenseRow] =
      (sampleLedger, .error .valueError) ∧
    importCSVFile (stdHeader :: ([] ++ ("Widget".data :: [[], [], [], [], []]) :: [])) =
      importCSVFile (stdHeader :: ([] ++ [])) := by
  refine ⟨?_, ?_, ?_⟩
  · exact tabular_import_failure.1 [badExpenseRow]
      ⟨badExpenseRow, List.mem_singleton.mpr rfl, rfl, .valueError, by decide⟩
  · exact tabular_import_failure.2.1 sampleLedger [stdHeader, badExpenseRow]
      .valueError (by decide)
  · exact tabular_import_failure.2.2 [] [] "Widget".data [[], [], [], [], []]
      (by decide)

/-- C6 witness: a structured document missing the expenses key is
rejected with the prior ledger intact, and concrete failing structured
and tabular imports leave the state unchanged. -/
theorem claim_C6_witness :
    import_data_json sampleLedger (.obj [("incomes".data, .arr [])]) =
      (sampleLedger, .error .valueError) ∧
    (import_data_json sampleLedger (.obj [])).1 = sampleLedger ∧
    (import_data_csv sampleLedger [stdHeader, badExpenseRow]).1 = sampleLedger := by
  refine ⟨?_, ?_, ?_⟩
  · exact (structured_import_validation sampleLedger).1 [("incomes".data, .arr [])]
      (Or.inr (Or.inl rfl))
  · exact (structured_import_validation sampleLedger).2.1 (.obj [])
      .valueError rfl
  · exact (structured_import_validation sampleLedger).2.2
      [stdHeader, badExpenseRow] .valueError (by decide)

/-- C8 witness: a negative amount is rejected, and a valid goal is
constructed with the fields as given. -/
theorem claim_C8_witness :
    mkIncome (-5) "Job".data Frequency.monthly [] false "2026-01-02".data =
      .error .valueError ∧
    tryAddIncome sampleLedger (-5) "Job".data Frequency.monthly [] false
      "2026-01-02".data = (sampleLedger, .error .valueError) ∧
    ∃ g, mkGoal "Laptop".data 1000 SavingsCategory.electronics none 2 = .ok g ∧
      g.name = "Laptop".data ∧ g.target_amount = 1000 ∧ g.current_amount = 0 ∧
      g.category = SavingsCategory.electronics.toStr ∧ g.deadline = none ∧
      g.priority = 2 ∧ g.contributions = some [] := by
  have hcv := construction_validation sampleLedger (-5) 1000 "Job".data
    "software".data [] "Laptop".data "2026-01-02".data Frequency.monthly
    ExpenseCategory.business SavingsCategory.electronics none 2 false false
  have hneg : (-5 : Rat) ≤ 0 := by norm_num
  exact ⟨(hcv.1 hneg).1, (hcv.1 hneg).2.1,
    hcv.2.2.2 (by norm_num) (by decide) (by decide)⟩

/-- C9 counterexample: a Category cell with two slashes does not decode
with everything after the first slash as the subcategory; the row decode
raises ValueError instead. -/
theorem claim_C9_counterexample :
    parseRow stdHeader ["Expense".data, "10.0".data, "d".data,
      "2026-01-01".data, "a/b/c".data, "Recurring: False".data] =
      .error .valueError := by decide

unseal Rat.add Rat.mul Rat.inv Rat.sub in
/-- C9 witness: a single-slash cell decodes into its two parts, and a
slash-free cell raises. -/
theorem claim_C9_witness :
    parseRow stdHeader ["Expense".data, "10.0".data, "d".data,
      "2026-01-01".data, "business/software".data, "Recurring: False".data] =
      .ok (.exp { id := none
                  amount := 10
                  description := "d".data
                  date := "2026-01-01".data
                  category := "business".data
                  subcategory := "software".data
                  is_recurring := some false }) ∧
    parseRow stdHeader ["Expense".data, "10.0".data, "d".data,
      "2026-01-01".data, "noslash".data, "Recurring: False".data] =
      .error .valueError :=
  ⟨(expense_category_split "business/software".data).1 "business".data
      "software".data rfl (by decide) (by decide),
   (expense_category_split "noslash".data).2.2 (by decide)⟩

/-- C10 witness: a ledger whose income lacks is_target makes the summary
raise KeyError, while the sample ledger's summary tolerates expenses by
the dict.get default. -/
theorem claim_C10_witness :
    get_summary { sampleLedger with
      incomes := [{ sampleIncome with is_target := none }] } =
      .error .keyError ∧
    ∃ s, get_summary sampleLedger = .ok s ∧
      s.expense_targets = sampleLedger.expenses.filter
        (fun e => e.is_recurring.getD false) :=
  ⟨(summary_missing_flags { sampleLedger with
      incomes := [{ sampleIncome with is_target := none }] }).1 (by decide),
   (summary_missing_flags sampleLedger).2 (by decide)⟩

end Penny
